import Mathlib

/-!
# Driver for the Waveshare 2.9" three-colour e-paper panel (`epd2in9bwr`)

A shallow embedding of `waveshare-epd/epd2in9bwr/epd2in9bwr.go`.

* Go `int16` values are integers; every `int16` addition, subtraction and
  multiplication is followed by `wrap16` (two's-complement wrap-around).
  `/` and `%` on `int16` are the truncating `Int.tdiv` and `Int.tmod`.
* `uint8` and `uint32` values are natural numbers, reduced modulo `2^8` and
  `2^32` where the Go code converts or multiplies.
* A method that can fail to return normally yields an `Option`: `none` stands
  for a Go run-time panic (slice index out of range) or, for the methods that
  poll the busy line, for a poll loop that is still running when the supplied
  busy-line readings are used up.
* The pins and the SPI bus are modelled by `Hw`: the events emitted so far and
  the levels the busy pin will show on the coming `Get` calls.
* Console output (`println`) is not part of the modelled state.
-/

namespace Epd2in9bwr

/-! ## Machine integers -/

/-- Two's-complement wrap-around of a Go `int16` result. -/
def wrap16 (v : Int) : Int := (v + 32768) % 65536 - 32768

/-- The values a Go `int16` variable can hold. -/
def isInt16 (v : Int) : Prop := -32768 ≤ v ∧ v ≤ 32767

instance (v : Int) : Decidable (isInt16 v) := by
  unfold isInt16; infer_instance

/-- Go conversion `uint32(v)` of an `int16` value (sign extension). -/
def toUint32 (v : Int) : Nat := (v % 4294967296).toNat

/-- Go conversion `uint8(v)` of an `int16` value. -/
def toUint8 (v : Int) : Nat := (v % 256).toNat

/-! ## Types and constants -/

/-- Go `color.RGBA`: four `uint8` channels. -/
structure RGBA where
  R : Nat
  G : Nat
  B : Nat
  A : Nat
deriving DecidableEq

/-- Go `type Config struct`. `Rotation` is a `uint8`. -/
structure Config where
  Width : Int
  Height : Int
  LogicalWidth : Int
  Rotation : Nat
deriving DecidableEq

/-- The memory fields of Go `type Device struct`; the pin and bus handles are
modelled by `Hw`. -/
structure Device where
  logicalWidth : Int
  width : Int
  height : Int
  buffer : List (List Nat)
  bufferLength : Nat
  rotation : Nat
deriving DecidableEq

def NoRotation : Nat := 0

def Rotation90 : Nat := 1

def Rotation180 : Nat := 2

def Rotation270 : Nat := 3

/-- Modelled from the spec: the `Color` constants are declared in a file of the
package that is not part of the source tree. The buffer has exactly two planes,
plane 0 is the primary (black) one, indexed `BLACK-1`, and plane 1 the
secondary (colored) one, indexed `COLORED-1`; hence `BLACK = 1`. -/
def BLACK : Nat := 1

/-- Modelled from the spec: see `BLACK`; plane 1 is indexed `COLORED-1`, hence
`COLORED = 2`. -/
def COLORED : Nat := 2

/-- The constants of the package that the source tree does not declare and the
specification does not fix: the `Color` value `WHITE` and the named panel
opcodes. They are parameters of the model; each is a `uint8`. -/
structure Registers where
  WHITE : Nat
  PANEL_SETTING : Nat
  POWER_OFF : Nat
  DATA_START_TRANSMISSION_1 : Nat
  DATA_START_TRANSMISSION_2 : Nat
  VCOM_AND_DATA_INTERVAL_SETTING : Nat
  RESOLUTION_SETTING : Nat
  DEEP_SLEEP : Nat
deriving DecidableEq

/-- `WHITE` is a `Color` value different from `BLACK` and `COLORED`. -/
def Registers.distinctColors (k : Registers) : Prop :=
  k.WHITE ≠ BLACK ∧ k.WHITE ≠ COLORED

instance (k : Registers) : Decidable k.distinctColors := by
  unfold Registers.distinctColors; infer_instance

/-- One instance of the constants, used to evaluate the model on concrete
inputs. -/
def sampleRegisters : Registers :=
  { WHITE := 0, PANEL_SETTING := 0x00, POWER_OFF := 0x02,
    DATA_START_TRANSMISSION_1 := 0x10, DATA_START_TRANSMISSION_2 := 0x13,
    VCOM_AND_DATA_INTERVAL_SETTING := 0x50, RESOLUTION_SETTING := 0x61,
    DEEP_SLEEP := 0x07 }

/-- Go `error`: `nil` or a non-nil error value. -/
inductive GoError where
  | nil
  | nonNil
deriving DecidableEq

/-! ## Hardware -/

/-- What the driver does to its pins and bus, in program order. -/
inductive Event where
  | rstHigh
  | rstLow
  | dcHigh
  | dcLow
  | csHigh
  | csLow
  | transfer (b : Nat)
  | sleepMs (ms : Nat)
  | busyGet (level : Bool)
deriving DecidableEq

/-- The hardware side: `trace` is what has been emitted so far, `busy` the
levels that the coming `d.busy.Get()` calls return. -/
structure Hw where
  trace : List Event
  busy : List Bool
deriving DecidableEq

/-- Append events to the trace. -/
def Hw.emit (hw : Hw) (es : List Event) : Hw :=
  { hw with trace := hw.trace ++ es }

/-- Counted loop `for i := 0; i < n; i++ { body }` whose body neither changes
`i` nor `n`. -/
def forLoop {σ : Type} (body : Nat → σ → Option σ) : Nat → σ → Option σ
  | 0, s => some s
  | n + 1, s => (forLoop body n s).bind (body n)

/-! ## The driver -/

/-- Go `SendCommand`. -/
def SendCommand (command : Nat) (hw : Hw) : Hw :=
  hw.emit [Event.dcLow, Event.csLow, Event.transfer command, Event.csHigh]

/-- Go `SendData`. -/
def SendData (data : Nat) (hw : Hw) : Hw :=
  hw.emit [Event.dcHigh, Event.csLow, Event.transfer data, Event.csHigh]

/-- Go `Reset`. -/
def Reset (hw : Hw) : Hw :=
  hw.emit [Event.rstHigh, Event.sleepMs 50, Event.rstLow, Event.sleepMs 2,
    Event.rstHigh, Event.sleepMs 50]

/-- The loop of `WaitUntilIdle`, by recursion on the coming busy readings:
send `0x71`, read the busy pin, leave the loop if it is high, else sleep
10 ms and go round again. -/
def pollLoop : List Bool → List Event → Option Hw
  | [], _ => none
  | b :: rest, tr =>
    let hw := (SendCommand 0x71 { trace := tr, busy := rest }).emit [Event.busyGet b]
    if b then some hw else pollLoop rest (hw.emit [Event.sleepMs 10]).trace

/-- Go `WaitUntilIdle`. -/
def WaitUntilIdle (hw : Hw) : Option Hw := pollLoop hw.busy hw.trace

/-- Go `IsBusy`: one reading of the busy pin. -/
def IsBusy (hw : Hw) : Option (Bool × Hw) :=
  match hw.busy with
  | [] => none
  | b :: rest => some (b, { trace := hw.trace ++ [Event.busyGet b], busy := rest })

/-- Go `TurnOnDisplay`. -/
def TurnOnDisplay (hw : Hw) : Option Hw :=
  WaitUntilIdle (SendCommand 0x12 hw)

/-- Go assignment `d.buffer[i] = p`. -/
def setPlane (d : Device) (i : Nat) (p : List Nat) : Option Device :=
  if i < d.buffer.length then some { d with buffer := d.buffer.set i p } else none

/-- Go read-modify-write `d.buffer[i][j] = f(d.buffer[i][j])` with an `int16`
or `uint32` index `j`; a plain store is the case of a constant `f`. -/
def updByte (d : Device) (i : Nat) (j : Int) (f : Nat → Nat) : Option Device :=
  match d.buffer[i]? with
  | none => none
  | some p =>
    if 0 ≤ j then
      match p[j.toNat]? with
      | none => none
      | some b => some { d with buffer := d.buffer.set i (p.set j.toNat (f b)) }
    else none

/-- Go `ClearBuffer`. -/
def ClearBuffer (d : Device) : Option Device :=
  forLoop (fun i d => forLoop (fun j d => updByte d i j (fun _ => 0xFF)) d.bufferLength d)
    (d.buffer.length % 256) d

/-- Go `Configure`. -/
def Configure (k : Registers) (cfg : Config) (d : Device) (hw : Hw) :
    Option (Device × Hw) :=
  let d := { d with logicalWidth := if cfg.LogicalWidth ≠ 0 then cfg.LogicalWidth else 128 }
  let d := { d with width := if cfg.Width ≠ 0 then cfg.Width else 128 }
  let d := { d with height := if cfg.Height ≠ 0 then cfg.Height else 296 }
  let d := { d with rotation := cfg.Rotation }
  let d := { d with bufferLength :=
    (toUint32 d.logicalWidth * toUint32 d.height) % 4294967296 / 8 }
  let d := { d with buffer := List.replicate 2 [] }
  (forLoop (fun i d => setPlane d i (List.replicate d.bufferLength 0)) d.buffer.length d).bind
  fun d =>
  (forLoop (fun i d => forLoop (fun j d => updByte d i j (fun _ => 0xFF)) d.bufferLength d)
    d.buffer.length d).bind
  fun d =>
  let hw := Reset hw
  let hw := SendCommand 0x04 hw
  (WaitUntilIdle hw).bind
  fun hw =>
  let hw := SendCommand k.PANEL_SETTING hw
  let hw := SendData 0x0f hw
  let hw := SendData 0x89 hw
  let hw := SendCommand k.RESOLUTION_SETTING hw
  let hw := SendData 0x80 hw
  let hw := SendData 0x01 hw
  let hw := SendData 0x28 hw
  let hw := SendCommand k.VCOM_AND_DATA_INTERVAL_SETTING hw
  let hw := SendData 0x77 hw
  some (d, hw)

/-- Go `d.SendData(d.buffer[i][j])`. -/
def sendByte (d : Device) (i j : Nat) (hw : Hw) : Option Hw :=
  match d.buffer[i]? with
  | none => none
  | some p =>
    match p[j]? with
    | none => none
    | some b => some (SendData b hw)

/-- Go `Display`. -/
def Display (k : Registers) (d : Device) (hw : Hw) : Option (Device × Hw × GoError) :=
  let hw := SendCommand k.DATA_START_TRANSMISSION_1 hw
  let hw := hw.emit [Event.sleepMs 2]
  (forLoop (fun i hw => sendByte d (BLACK - 1) i hw) d.bufferLength hw).bind
  fun hw =>
  let hw := hw.emit [Event.sleepMs 2]
  let hw := SendCommand k.DATA_START_TRANSMISSION_2 hw
  let hw := hw.emit [Event.sleepMs 2]
  (forLoop (fun i hw => sendByte d (COLORED - 1) i hw) d.bufferLength hw).bind
  fun hw =>
  let hw := hw.emit [Event.sleepMs 2]
  (TurnOnDisplay hw).bind
  fun hw => some (d, hw, GoError.nil)

/-- Go `SetRotation`. -/
def SetRotation (d : Device) (rotation : Nat) : Device :=
  { d with rotation := rotation }

/-- Go `xy`: the coordinates according to the rotation. -/
def xy (d : Device) (x y : Int) : Int × Int :=
  if d.rotation = NoRotation then (x, y)
  else if d.rotation = Rotation90 then (wrap16 (wrap16 (d.width - y) - 1), x)
  else if d.rotation = Rotation180 then
    (wrap16 (wrap16 (d.width - x) - 1), wrap16 (wrap16 (d.height - y) - 1))
  else if d.rotation = Rotation270 then (y, wrap16 (wrap16 (d.height - x) - 1))
  else (x, y)

/-- Go `byteIndex := (x + y*d.width) / 8`, in `int16`. -/
def byteIndex (d : Device) (x y : Int) : Int :=
  Int.tdiv (wrap16 (x + wrap16 (y * d.width))) 8

/-- Go `0x80 >> uint8(x%8)`, a `uint8`. -/
def bitMask (x : Int) : Nat := (0x80 >>> toUint8 (Int.tmod x 8)) % 256

/-- Go `b | m` on `uint8`. -/
def setBits (m b : Nat) : Nat := b ||| m

/-- Go `b &^ m` on `uint8`. -/
def clearBits (m b : Nat) : Nat := b &&& (255 ^^^ m)

/-- Go `SetEPDPixel`. -/
def SetEPDPixel (k : Registers) (d : Device) (x y : Int) (c : Nat) : Option Device :=
  if x < 0 ∨ x ≥ d.width ∨ y < 0 ∨ y ≥ d.height then some d
  else
    let byteIndex := byteIndex d x y
    if c = k.WHITE then
      (updByte d (BLACK - 1) byteIndex (setBits (bitMask x))).bind
      fun d => updByte d (COLORED - 1) byteIndex (setBits (bitMask x))
    else if c = COLORED then
      (updByte d (BLACK - 1) byteIndex (setBits (bitMask x))).bind
      fun d => updByte d (COLORED - 1) byteIndex (clearBits (bitMask x))
    else
      (updByte d (COLORED - 1) byteIndex (setBits (bitMask x))).bind
      fun d => updByte d (BLACK - 1) byteIndex (clearBits (bitMask x))

/-- Go `SetPixel`. -/
def SetPixel (k : Registers) (d : Device) (x y : Int) (c : RGBA) : Option Device :=
  let p := xy d x y
  let x := p.1
  let y := p.2
  if x < 0 ∨ x ≥ d.logicalWidth ∨ y < 0 ∨ y ≥ d.height then some d
  else if x < 0 ∨ x ≥ d.width ∨ y < 0 ∨ y ≥ d.height then some d
  else if c.R ≠ 0 ∧ c.G = 0 ∧ c.B = 0 then SetEPDPixel k d x y COLORED
  else if c.G ≠ 0 ∨ c.B ≠ 0 then SetEPDPixel k d x y BLACK
  else SetEPDPixel k d x y k.WHITE

/-- The `Color` that the `if` chain of `SetPixel` hands to `SetEPDPixel`. -/
def classify (k : Registers) (c : RGBA) : Nat :=
  if c.R ≠ 0 ∧ c.G = 0 ∧ c.B = 0 then COLORED
  else if c.G ≠ 0 ∨ c.B ≠ 0 then BLACK
  else k.WHITE

/-- The zero-valued `Device` that `New` returns. -/
def newDevice : Device :=
  { logicalWidth := 0, width := 0, height := 0, buffer := [], bufferLength := 0,
    rotation := 0 }

/-- The default configuration: a zero-valued `Config`. -/
def defaultConfig : Config :=
  { Width := 0, Height := 0, LogicalWidth := 0, Rotation := 0 }

/-! ## Observations and closed forms used in the statements -/

/-- Plane `i` of the buffer (empty when there is no such plane). -/
def plane (d : Device) (i : Nat) : List Nat := d.buffer.getD i []

/-- Byte `j` of plane `i` (zero when out of range). -/
def byteAt (d : Device) (i j : Nat) : Nat := (plane d i).getD j 0

/-- The values a Go `Config` can hold. -/
def Config.wellTyped (cfg : Config) : Prop :=
  isInt16 cfg.Width ∧ isInt16 cfg.Height ∧ isInt16 cfg.LogicalWidth ∧ cfg.Rotation < 256

instance (cfg : Config) : Decidable cfg.wellTyped := by
  unfold Config.wellTyped; infer_instance

/-- The values a Go `color.RGBA` can hold. -/
def RGBA.wellTyped (c : RGBA) : Prop :=
  c.R < 256 ∧ c.G < 256 ∧ c.B < 256 ∧ c.A < 256

instance (c : RGBA) : Decidable c.wellTyped := by
  unfold RGBA.wellTyped; infer_instance

/-- The events of one `SendCommand`. -/
def commandEvents (command : Nat) : List Event :=
  [Event.dcLow, Event.csLow, Event.transfer command, Event.csHigh]

/-- The events of one `SendData`. -/
def dataEvents (data : Nat) : List Event :=
  [Event.dcHigh, Event.csLow, Event.transfer data, Event.csHigh]

/-- The events of a `WaitUntilIdle` that reads low `n` times and then high. -/
def idleWaitEvents : Nat → List Event
  | 0 => commandEvents 0x71 ++ [Event.busyGet true]
  | n + 1 => commandEvents 0x71 ++ [Event.busyGet false, Event.sleepMs 10] ++ idleWaitEvents n

/-- The device memory a device has been brought to by `Configure` and any
number of completed `SetPixel`, `SetEPDPixel`, `SetRotation` and `ClearBuffer`
calls, with arguments of the Go parameter types. -/
inductive Configured (k : Registers) : Device → Prop where
  | configure (cfg : Config) (d0 d : Device) (hw hw' : Hw) :
      cfg.wellTyped → Configure k cfg d0 hw = some (d, hw') → Configured k d
  | setPixel (d d' : Device) (x y : Int) (c : RGBA) :
      Configured k d → isInt16 x → isInt16 y → c.wellTyped →
      SetPixel k d x y c = some d' → Configured k d'
  | setEPDPixel (d d' : Device) (x y : Int) (c : Nat) :
      Configured k d → isInt16 x → isInt16 y → c < 256 →
      SetEPDPixel k d x y c = some d' → Configured k d'
  | setRotation (d : Device) (r : Nat) :
      Configured k d → r < 256 → Configured k (SetRotation d r)
  | clearBuffer (d d' : Device) :
      Configured k d → ClearBuffer d = some d' → Configured k d'

/-- The shape of the buffer of a configured device: two planes of
`bufferLength` bytes each. -/
def TwoPlanes (d : Device) : Prop :=
  ∃ p0 p1 : List Nat, d.buffer = [p0, p1] ∧ p0.length = d.bufferLength ∧
    p1.length = d.bufferLength

/-- The value `Configure` gives to `logicalWidth`. -/
def resolvedLogicalWidth (cfg : Config) : Int :=
  if cfg.LogicalWidth ≠ 0 then cfg.LogicalWidth else 128

/-- The value `Configure` gives to `width`. -/
def resolvedWidth (cfg : Config) : Int :=
  if cfg.Width ≠ 0 then cfg.Width else 128

/-- The value `Configure` gives to `height`. -/
def resolvedHeight (cfg : Config) : Int :=
  if cfg.Height ≠ 0 then cfg.Height else 296

/-- The value `Configure` gives to `bufferLength`, in `uint32` arithmetic. -/
def resolvedBufferLength (cfg : Config) : Nat :=
  (toUint32 (resolvedLogicalWidth cfg) * toUint32 (resolvedHeight cfg)) % 4294967296 / 8

/-- The device memory after `Configure`, in closed form. -/
def configuredMemory (cfg : Config) : Device :=
  { logicalWidth := resolvedLogicalWidth cfg
    width := resolvedWidth cfg
    height := resolvedHeight cfg
    buffer := [List.replicate (resolvedBufferLength cfg) 0xFF,
      List.replicate (resolvedBufferLength cfg) 0xFF]
    bufferLength := resolvedBufferLength cfg
    rotation := cfg.Rotation }

/-- The events of `Configure` after the idle wait. -/
def panelSetupEvents (k : Registers) : List Event :=
  commandEvents k.PANEL_SETTING ++ dataEvents 0x0f ++ dataEvents 0x89 ++
  commandEvents k.RESOLUTION_SETTING ++ dataEvents 0x80 ++ dataEvents 0x01 ++ dataEvents 0x28 ++
  commandEvents k.VCOM_AND_DATA_INTERVAL_SETTING ++ dataEvents 0x77

/-- The events of `Reset`. -/
def resetEvents : List Event :=
  [Event.rstHigh, Event.sleepMs 50, Event.rstLow, Event.sleepMs 2,
    Event.rstHigh, Event.sleepMs 50]

/-- What `SetEPDPixel` does to the addressed byte of plane 0 for colour `c` and
mask `m`. -/
def planeOp0 (k : Registers) (c m : Nat) : Nat → Nat :=
  if c = k.WHITE then setBits m else if c = COLORED then setBits m else clearBits m

/-- What `SetEPDPixel` does to the addressed byte of plane 1 for colour `c` and
mask `m`. -/
def planeOp1 (k : Registers) (c m : Nat) : Nat → Nat :=
  if c = k.WHITE then setBits m else if c = COLORED then clearBits m else setBits m

/-- The coordinate is outside the visible extent: the guard of `SetEPDPixel`. -/
def outside (d : Device) (x y : Int) : Prop :=
  x < 0 ∨ x ≥ d.width ∨ y < 0 ∨ y ≥ d.height

instance (d : Device) (x y : Int) : Decidable (outside d x y) := by
  unfold outside; infer_instance

/-- No bit position is clear in both planes. -/
def NoBothClear (d : Device) : Prop :=
  ∀ i, i < d.bufferLength → byteAt d 0 i ||| byteAt d 1 i = 0xFF

/-- The rotation that the specification pairs with `r`: 90 with 270 degrees,
180 with 180, 0 with 0. -/
def inverseRotation (r : Nat) : Nat :=
  if r = Rotation90 then Rotation270 else if r = Rotation270 then Rotation90 else r

/-- Apply `xy` under rotation `r`, then `xy` under the paired rotation. -/
def roundTrip (d : Device) (r : Nat) (x y : Int) : Int × Int :=
  xy (SetRotation d (inverseRotation r)) (xy (SetRotation d r) x y).1 (xy (SetRotation d r) x y).2

/-- A configuration with a logical width larger than the width: 8 visible
pixels per row in rows of 16 bits, 4 rows, hence planes of 8 bytes. -/
def wideRowConfig : Config :=
  { Width := 8, Height := 4, LogicalWidth := 16, Rotation := 0 }

/-- A small configuration: 8 x 2 pixels, planes of 2 bytes. -/
def smallConfig : Config :=
  { Width := 8, Height := 2, LogicalWidth := 8, Rotation := 0 }

/-- The device memory after `Configure` with `smallConfig` and
`SetEPDPixel(3, 1, 9)`. -/
def smallDrawn : Device :=
  { logicalWidth := 8, width := 8, height := 2, buffer := [[0xFF, 0xEF], [0xFF, 0xFF]],
    bufferLength := 2, rotation := 0 }

/-- Every byte of both planes is `0xFF`, and the bit addressed by every
in-range coordinate whose byte index lies in the planes is set in both. -/
def AllWhite (d : Device) : Prop :=
  d.buffer = [List.replicate d.bufferLength 0xFF, List.replicate d.bufferLength 0xFF] ∧
  (∀ i, i < d.bufferLength → byteAt d 0 i = 0xFF ∧ byteAt d 1 i = 0xFF) ∧
  (∀ x y : Int, ¬ outside d x y → 0 ≤ byteIndex d x y →
    (byteIndex d x y).toNat < d.bufferLength →
      bitMask x ≠ 0 ∧
      byteAt d 0 (byteIndex d x y).toNat &&& bitMask x = bitMask x ∧
      byteAt d 1 (byteIndex d x y).toNat &&& bitMask x = bitMask x)

/-- The events of sending the bytes of a plane, in index order. -/
def planeEvents : List Nat → List Event
  | [] => []
  | b :: bs => dataEvents b ++ planeEvents bs

/-- The events of `Display` for planes `p0` and `p1` when the busy line reads
low `n` times and then high. -/
def displayEvents (k : Registers) (p0 p1 : List Nat) (n : Nat) : List Event :=
  commandEvents k.DATA_START_TRANSMISSION_1 ++ [Event.sleepMs 2] ++ planeEvents p0 ++
  [Event.sleepMs 2] ++ commandEvents k.DATA_START_TRANSMISSION_2 ++ [Event.sleepMs 2] ++
  planeEvents p1 ++ [Event.sleepMs 2] ++ commandEvents 0x12 ++ idleWaitEvents n

/-- Go `d.SendData(0xFF)` as a loop body: it cannot fail. -/
def sendConst (data : Nat) (hw : Hw) : Option Hw := some (SendData data hw)

/-- Go `ClearDisplay`. -/
def ClearDisplay (k : Registers) (d : Device) (hw : Hw) : Option (Device × Hw) :=
  let hw := SendCommand k.DATA_START_TRANSMISSION_1 hw
  let hw := hw.emit [Event.sleepMs 2]
  (forLoop (fun _ hw => sendConst 0xFF hw) d.bufferLength hw).bind
  fun hw =>
  let hw := hw.emit [Event.sleepMs 2]
  let hw := SendCommand k.DATA_START_TRANSMISSION_2 hw
  let hw := hw.emit [Event.sleepMs 2]
  (forLoop (fun _ hw => sendConst 0xFF hw) d.bufferLength hw).bind
  fun hw =>
  let hw := hw.emit [Event.sleepMs 2]
  (TurnOnDisplay hw).bind
  fun hw => some (d, hw)

/-- Go `DeepSleep`. -/
def DeepSleep (k : Registers) (hw : Hw) : Option Hw :=
  let hw := SendCommand k.POWER_OFF hw
  (WaitUntilIdle hw).bind
  fun hw =>
  let hw := SendCommand k.DEEP_SLEEP hw
  let hw := SendData 0xa5 hw
  let hw := hw.emit [Event.sleepMs 2000]
  some (hw.emit [Event.rstLow])

/-- Go `Size`. -/
def Size (d : Device) : Int × Int := (d.width, d.height)

/-- The events of `Display` and of `ClearDisplay` before `TurnOnDisplay`, for
the byte sequences `p0` and `p1`. -/
def transmissionEvents (k : Registers) (p0 p1 : List Nat) : List Event :=
  commandEvents k.DATA_START_TRANSMISSION_1 ++ [Event.sleepMs 2] ++ planeEvents p0 ++
  [Event.sleepMs 2] ++ commandEvents k.DATA_START_TRANSMISSION_2 ++ [Event.sleepMs 2] ++
  planeEvents p1 ++ [Event.sleepMs 2]

/-- Every byte of the buffer is a `uint8` value. -/
def Device.bytesTyped (d : Device) : Prop :=
  ∀ p ∈ d.buffer, ∀ b ∈ p, b < 256

instance (d : Device) : Decidable d.bytesTyped := by
  unfold Device.bytesTyped; infer_instance

/-- The device `d'` has the fields and plane lengths of `d` and differs from
it at most in bit `t` of byte `n` of plane 0 and of plane 1. -/
def SingleBitFrame (d d' : Device) (n t : Nat) : Prop :=
  d'.width = d.width ∧ d'.height = d.height ∧ d'.logicalWidth = d.logicalWidth ∧
  d'.rotation = d.rotation ∧ d'.bufferLength = d.bufferLength ∧
  d'.buffer.length = d.buffer.length ∧
  (∀ i, (plane d' i).length = (plane d i).length) ∧
  (∀ i j s, ¬ (i < 2 ∧ j = n ∧ s = t) →
    (byteAt d' i j).testBit s = (byteAt d i j).testBit s)

/-- The logical extent under the rotation of `d`: `[0, width) x [0, height)`
for 0 and 180 degrees (and for rotation values beyond 270 degrees, which `xy`
treats as no rotation), `[0, height) x [0, width)` for 90 and 270 degrees. -/
def inLogicalExtent (d : Device) (x y : Int) : Prop :=
  if d.rotation = Rotation90 ∨ d.rotation = Rotation270 then
    0 ≤ x ∧ x < d.height ∧ 0 ≤ y ∧ y < d.width
  else 0 ≤ x ∧ x < d.width ∧ 0 ≤ y ∧ y < d.height

instance (d : Device) (x y : Int) : Decidable (inLogicalExtent d x y) := by
  unfold inLogicalExtent; infer_instance

/-! ## Lemmas on machine integers and bytes -/

theorem wrap16_of_isInt16 {v : Int} (h : isInt16 v) : wrap16 v = v := by
  unfold isInt16 at h
  unfold wrap16
  omega

theorem wrap16_isInt16 (v : Int) : isInt16 (wrap16 v) := by
  unfold isInt16 wrap16
  omega

theorem bitMask_eq_two_pow {x : Int} (hx : 0 ≤ x) :
    bitMask x = 2 ^ (7 - (x % 8).toNat) := by
  unfold bitMask toUint8
  rw [Int.tmod_eq_emod hx (by decide)]
  have h1 : 0 ≤ x % 8 := Int.emod_nonneg x (by decide)
  have h2 : x % 8 < 8 := Int.emod_lt_of_pos x (by decide)
  have h3 : x % 8 % 256 = x % 8 := by omega
  rw [h3]
  have hs : (x % 8).toNat < 8 := by omega
  generalize (x % 8).toNat = s at hs ⊢
  interval_cases s <;> rfl

theorem testBit_255 (i : Nat) : Nat.testBit 255 i = decide (i < 8) :=
  Nat.testBit_two_pow_sub_one 8 i

theorem testBit_setBits (m b i : Nat) :
    (setBits m b).testBit i = (b.testBit i || m.testBit i) := by
  unfold setBits
  exact Nat.testBit_lor b m i

theorem testBit_clearBits (m b i : Nat) :
    (clearBits m b).testBit i = (b.testBit i && (decide (i < 8) ^^ m.testBit i)) := by
  unfold clearBits
  rw [Nat.testBit_and, Nat.testBit_xor, testBit_255]

/-! ## Lemmas on loops and buffer updates -/

theorem set_of_getElem? {α : Type} {l : List α} {i : Nat} {a : α} (h : l[i]? = some a) :
    l.set i a = l := by
  apply List.ext_getElem?
  intro j
  rw [List.getElem?_set]
  by_cases hij : i = j
  · subst hij
    have hlt : i < l.length := by
      by_contra hge
      rw [List.getElem?_eq_none (by omega)] at h
      exact Option.noConfusion h
    simp [hlt, h]
  · simp [hij]

theorem updByte_of_getElem? {d : Device} {i j : Nat} {p : List Nat} {b : Nat}
    (f : Nat → Nat) (hp : d.buffer[i]? = some p) (hb : p[j]? = some b) :
    updByte d i (j : Int) f = some { d with buffer := d.buffer.set i (p.set j (f b)) } := by
  unfold updByte
  simp [hp, hb]

theorem updByte_neg (d : Device) (i : Nat) {j : Int} (f : Nat → Nat) (hj : j < 0) :
    updByte d i j f = none := by
  unfold updByte
  cases d.buffer[i]? with
  | none => rfl
  | some p => simp [not_le.mpr hj]

theorem forLoop_fill (v i : Nat) (p : List Nat) :
    ∀ (n : Nat) (d : Device), d.buffer[i]? = some p → n ≤ p.length →
      forLoop (fun j d => updByte d i (j : Int) (fun _ => v)) n d
        = some { d with buffer := d.buffer.set i (List.replicate n v ++ p.drop n) } := by
  intro n
  induction n with
  | zero =>
    intro d hp _
    simp [forLoop, set_of_getElem? hp]
  | succ n ih =>
    intro d hp hn
    have hi : i < d.buffer.length := by
      by_contra hge
      rw [List.getElem?_eq_none (by omega)] at hp
      exact Option.noConfusion hp
    have hlt : n < p.length := by omega
    simp only [forLoop]
    rw [ih d hp (by omega)]
    simp only [Option.bind]
    have hrow : (d.buffer.set i (List.replicate n v ++ p.drop n))[i]?
        = some (List.replicate n v ++ p.drop n) := List.getElem?_set_self hi
    have hbyte : (List.replicate n v ++ p.drop n)[n]? = some p[n] := by
      rw [List.getElem?_append_right (by simp)]
      simp [List.getElem?_drop, List.getElem?_eq_getElem hlt]
    have hd : ({ d with buffer := d.buffer.set i (List.replicate n v ++ p.drop n) } : Device).buffer[i]?
        = some (List.replicate n v ++ p.drop n) := hrow
    rw [updByte_of_getElem? (fun _ => v) hd hbyte]
    simp only [List.set_set]
    congr 3
    rw [List.set_append]
    simp only [List.length_replicate, lt_irrefl, if_false, Nat.sub_self]
    rw [List.drop_eq_getElem_cons hlt, List.set_cons_zero, List.replicate_succ',
      List.append_assoc]
    rfl

theorem forLoop_fill_all (v i : Nat) (p : List Nat) (d : Device)
    (hp : d.buffer[i]? = some p) :
    forLoop (fun j d => updByte d i (j : Int) (fun _ => v)) p.length d
      = some { d with buffer := d.buffer.set i (List.replicate p.length v) } := by
  rw [forLoop_fill v i p p.length d hp (le_refl _)]
  simp

/-! ## Closed forms of `WaitUntilIdle` and `Configure` -/

theorem pollLoop_eq (n : Nat) (rest : List Bool) :
    ∀ tr : List Event, pollLoop (List.replicate n false ++ true :: rest) tr
      = some { trace := tr ++ idleWaitEvents n, busy := rest } := by
  induction n with
  | zero =>
    intro tr
    simp [pollLoop, SendCommand, Hw.emit, idleWaitEvents, commandEvents]
  | succ n ih =>
    intro tr
    simp only [List.replicate_succ, List.cons_append, pollLoop]
    simp only [Bool.false_eq_true, if_false]
    change pollLoop (List.replicate n false ++ true :: rest) _ = _
    rw [ih]
    simp [SendCommand, Hw.emit, idleWaitEvents, commandEvents]

theorem WaitUntilIdle_eq (hw : Hw) (n : Nat) (rest : List Bool)
    (hb : hw.busy = List.replicate n false ++ true :: rest) :
    WaitUntilIdle hw = some { trace := hw.trace ++ idleWaitEvents n, busy := rest } := by
  unfold WaitUntilIdle
  rw [hb, pollLoop_eq]

theorem busy_split : ∀ busy : List Bool, true ∈ busy →
    ∃ (n : Nat) (rest : List Bool), busy = List.replicate n false ++ true :: rest := by
  intro busy
  induction busy with
  | nil => intro h; simp at h
  | cons b bs ih =>
    intro h
    cases b with
    | true => exact ⟨0, bs, by simp⟩
    | false =>
      have h' : true ∈ bs := by simpa using h
      obtain ⟨n, rest, hbs⟩ := ih h'
      exact ⟨n + 1, rest, by simp [hbs, List.replicate_succ]⟩

theorem allocLoop_eq (d : Device) (a b : List Nat) (hb : d.buffer = [a, b]) :
    forLoop (fun i d => setPlane d i (List.replicate d.bufferLength 0)) 2 d
      = some { d with buffer := [List.replicate d.bufferLength 0,
          List.replicate d.bufferLength 0] } := by
  simp [forLoop, setPlane, hb]

theorem fillLoop_eq (d : Device) (p0 p1 : List Nat) (hb : d.buffer = [p0, p1])
    (h0 : p0.length = d.bufferLength) (h1 : p1.length = d.bufferLength) :
    forLoop (fun i d => forLoop (fun j d => updByte d i (j : Int) (fun _ => 0xFF))
        d.bufferLength d) 2 d
      = some { d with buffer := [List.replicate d.bufferLength 0xFF,
          List.replicate d.bufferLength 0xFF] } := by
  have e0 : d.buffer[0]? = some p0 := by simp [hb]
  have step0 := forLoop_fill_all 0xFF 0 p0 d e0
  rw [h0] at step0
  have e1 : ({ d with buffer := d.buffer.set 0 (List.replicate d.bufferLength 0xFF) }
      : Device).buffer[1]? = some p1 := by simp [hb]
  have step1 := forLoop_fill_all 0xFF 1 p1 _ e1
  rw [h1] at step1
  simp only [forLoop, Option.bind]
  rw [step0]
  simp only []
  rw [step1]
  simp [hb]

theorem Configure_eq_bind (k : Registers) (cfg : Config) (d0 : Device) (hw : Hw) :
    Configure k cfg d0 hw
      = (WaitUntilIdle (SendCommand 0x04 (Reset hw))).bind
          (fun hw1 => some (configuredMemory cfg, hw1.emit (panelSetupEvents k))) := by
  unfold Configure
  simp only [List.length_replicate]
  rw [allocLoop_eq _ [] [] rfl]
  simp only [Option.some_bind, List.length_cons, List.length_nil, Nat.zero_add,
    Nat.reduceAdd]
  rw [fillLoop_eq _ _ _ rfl (by simp) (by simp)]
  simp only [Option.some_bind]
  congr 1
  funext hw1
  simp [configuredMemory, resolvedLogicalWidth, resolvedWidth, resolvedHeight,
    resolvedBufferLength, panelSetupEvents, SendCommand, SendData, Hw.emit, commandEvents,
    dataEvents]

theorem Configure_of_busy (k : Registers) (cfg : Config) (d0 : Device) (hw : Hw) (n : Nat)
    (rest : List Bool) (hb : hw.busy = List.replicate n false ++ true :: rest) :
    Configure k cfg d0 hw
      = some (configuredMemory cfg,
          { trace := hw.trace ++ resetEvents ++ commandEvents 0x04 ++ idleWaitEvents n ++
              panelSetupEvents k,
            busy := rest }) := by
  rw [Configure_eq_bind]
  have hb' : (SendCommand 0x04 (Reset hw)).busy = List.replicate n false ++ true :: rest := by
    simpa [SendCommand, Reset, Hw.emit] using hb
  rw [WaitUntilIdle_eq _ n rest hb']
  simp [SendCommand, Reset, Hw.emit, resetEvents, commandEvents]

theorem Configure_memory {k : Registers} {cfg : Config} {d0 d : Device} {hw hw' : Hw}
    (h : Configure k cfg d0 hw = some (d, hw')) : d = configuredMemory cfg := by
  rw [Configure_eq_bind] at h
  cases hw1 : WaitUntilIdle (SendCommand 0x04 (Reset hw)) with
  | none => rw [hw1] at h; exact Option.noConfusion h
  | some hw2 =>
    rw [hw1] at h
    simp only [Option.some_bind, Option.some.injEq, Prod.mk.injEq] at h
    exact h.1.symm

/-! ## Closed form of `SetEPDPixel` -/

theorem updByte_plane0 (d : Device) (p0 p1 : List Nat) (hb : d.buffer = [p0, p1]) (j : Int)
    (f : Nat → Nat) :
    updByte d 0 j f
      = if 0 ≤ j ∧ j.toNat < p0.length then
          some { d with buffer := [p0.set j.toNat (f (p0.getD j.toNat 0)), p1] }
        else none := by
  unfold updByte
  by_cases hj : 0 ≤ j
  · by_cases hlt : j.toNat < p0.length
    · simp [hb, hj, hlt, List.getElem?_eq_getElem hlt, List.getD_eq_getElem?_getD]
    · simp [hb, hj, hlt, List.getElem?_eq_none (not_lt.mp hlt)]
  · simp [hb, hj]

theorem updByte_plane1 (d : Device) (p0 p1 : List Nat) (hb : d.buffer = [p0, p1]) (j : Int)
    (f : Nat → Nat) :
    updByte d 1 j f
      = if 0 ≤ j ∧ j.toNat < p1.length then
          some { d with buffer := [p0, p1.set j.toNat (f (p1.getD j.toNat 0))] }
        else none := by
  unfold updByte
  by_cases hj : 0 ≤ j
  · by_cases hlt : j.toNat < p1.length
    · simp [hb, hj, hlt, List.getElem?_eq_getElem hlt, List.getD_eq_getElem?_getD]
    · simp [hb, hj, hlt, List.getElem?_eq_none (not_lt.mp hlt)]
  · simp [hb, hj]

theorem SetEPDPixel_outside (k : Registers) (d : Device) (x y : Int) (c : Nat)
    (h : outside d x y) : SetEPDPixel k d x y c = some d := by
  unfold outside at h
  unfold SetEPDPixel
  rw [if_pos h]

theorem SetEPDPixel_inside (k : Registers) (d : Device) (p0 p1 : List Nat) (x y : Int) (c : Nat)
    (hb : d.buffer = [p0, p1]) (hlen : p0.length = p1.length) (h : ¬ outside d x y) :
    SetEPDPixel k d x y c
      = if 0 ≤ byteIndex d x y ∧ (byteIndex d x y).toNat < p0.length then
          some { d with buffer :=
            [p0.set (byteIndex d x y).toNat
                (planeOp0 k c (bitMask x) (p0.getD (byteIndex d x y).toNat 0)),
              p1.set (byteIndex d x y).toNat
                (planeOp1 k c (bitMask x) (p1.getD (byteIndex d x y).toNat 0))] }
        else none := by
  unfold outside at h
  unfold SetEPDPixel
  rw [if_neg h]
  simp only [BLACK, COLORED, Nat.sub_self, Nat.add_one_sub_one]
  by_cases hin : 0 ≤ byteIndex d x y ∧ (byteIndex d x y).toNat < p0.length
  · have hin1 : 0 ≤ byteIndex d x y ∧ (byteIndex d x y).toNat < p1.length := by
      rw [← hlen]; exact hin
    by_cases hw : c = k.WHITE
    · rw [if_pos hw, updByte_plane0 d p0 p1 hb, if_pos hin, Option.some_bind,
        updByte_plane1 _ _ p1 rfl, if_pos hin1, if_pos hin]
      simp [planeOp0, planeOp1, hw]
    · by_cases hc : c = 2
      · rw [if_neg hw, if_pos hc, updByte_plane0 d p0 p1 hb, if_pos hin, Option.some_bind,
          updByte_plane1 _ _ p1 rfl, if_pos hin1, if_pos hin]
        subst hc
        simp [planeOp0, planeOp1, hw, COLORED]
      · rw [if_neg hw, if_neg hc, updByte_plane1 d p0 p1 hb, if_pos hin1, Option.some_bind,
          updByte_plane0 _ p0 _ rfl, if_pos hin, if_pos hin]
        simp [planeOp0, planeOp1, hw, hc, COLORED]
  · have hin1 : ¬ (0 ≤ byteIndex d x y ∧ (byteIndex d x y).toNat < p1.length) := by
      rw [← hlen]; exact hin
    rw [if_neg hin]
    by_cases hw : c = k.WHITE
    · rw [if_pos hw, updByte_plane0 d p0 p1 hb, if_neg hin]; rfl
    · by_cases hc : c = 2
      · rw [if_neg hw, if_pos hc, updByte_plane0 d p0 p1 hb, if_neg hin]; rfl
      · rw [if_neg hw, if_neg hc, updByte_plane1 d p0 p1 hb, if_neg hin1]; rfl

theorem SetPixel_eq_classify (k : Registers) (d : Device) (x y : Int) (c : RGBA) :
    SetPixel k d x y c
      = if outside d (xy d x y).1 (xy d x y).2 ∨ (xy d x y).1 ≥ d.logicalWidth then some d
        else SetEPDPixel k d (xy d x y).1 (xy d x y).2 (classify k c) := by
  unfold SetPixel classify outside
  simp only []
  by_cases h1 : (xy d x y).1 < 0 ∨ (xy d x y).1 ≥ d.logicalWidth ∨ (xy d x y).2 < 0 ∨
      (xy d x y).2 ≥ d.height
  · rw [if_pos h1, if_pos]
    rcases h1 with h | h | h | h
    · exact Or.inl (Or.inl h)
    · exact Or.inr h
    · exact Or.inl (Or.inr (Or.inr (Or.inl h)))
    · exact Or.inl (Or.inr (Or.inr (Or.inr h)))
  · rw [if_neg h1]
    by_cases h2 : (xy d x y).1 < 0 ∨ (xy d x y).1 ≥ d.width ∨ (xy d x y).2 < 0 ∨
        (xy d x y).2 ≥ d.height
    · rw [if_pos h2, if_pos (Or.inl h2)]
    · have h3 : ¬ (((xy d x y).1 < 0 ∨ (xy d x y).1 ≥ d.width ∨ (xy d x y).2 < 0 ∨
          (xy d x y).2 ≥ d.height) ∨ (xy d x y).1 ≥ d.logicalWidth) := by
        intro h
        rcases h with h | h
        · exact h2 h
        · exact h1 (Or.inr (Or.inl h))
      rw [if_neg h2, if_neg h3]
      split_ifs <;> rfl

theorem SetEPDPixel_cases {k : Registers} {d d' : Device} {p0 p1 : List Nat} {x y : Int}
    {c : Nat} (hb : d.buffer = [p0, p1]) (hlen : p0.length = p1.length)
    (h : SetEPDPixel k d x y c = some d') :
    d' = d ∨ (¬ outside d x y ∧ 0 ≤ byteIndex d x y ∧ (byteIndex d x y).toNat < p0.length ∧
      d' = { d with buffer :=
        [p0.set (byteIndex d x y).toNat
            (planeOp0 k c (bitMask x) (p0.getD (byteIndex d x y).toNat 0)),
          p1.set (byteIndex d x y).toNat
            (planeOp1 k c (bitMask x) (p1.getD (byteIndex d x y).toNat 0))] }) := by
  by_cases ho : outside d x y
  · rw [SetEPDPixel_outside k d x y c ho] at h
    exact Or.inl (Option.some.inj h).symm
  · rw [SetEPDPixel_inside k d p0 p1 x y c hb hlen ho] at h
    by_cases hin : 0 ≤ byteIndex d x y ∧ (byteIndex d x y).toNat < p0.length
    · rw [if_pos hin] at h
      exact Or.inr ⟨ho, hin.1, hin.2, (Option.some.inj h).symm⟩
    · rw [if_neg hin] at h
      exact Option.noConfusion h

theorem SetPixel_cases {k : Registers} {d d' : Device} {x y : Int} {c : RGBA}
    (h : SetPixel k d x y c = some d') :
    d' = d ∨ SetEPDPixel k d (xy d x y).1 (xy d x y).2 (classify k c) = some d' := by
  rw [SetPixel_eq_classify] at h
  split_ifs at h with hg
  · exact Or.inl (Option.some.inj h).symm
  · exact Or.inr h

theorem ClearBuffer_eq {d : Device} (h : TwoPlanes d) :
    ClearBuffer d = some { d with buffer := [List.replicate d.bufferLength 0xFF,
      List.replicate d.bufferLength 0xFF] } := by
  obtain ⟨p0, p1, hb, h0, h1⟩ := h
  unfold ClearBuffer
  have h2 : d.buffer.length % 256 = 2 := by rw [hb]; rfl
  rw [h2]
  exact fillLoop_eq d p0 p1 hb h0 h1

theorem bitMask_lt (x : Int) : bitMask x < 256 := by
  unfold bitMask
  exact Nat.mod_lt _ (by decide)

theorem testBit_of_lt_256 {m i : Nat} (hm : m < 256) (hi : ¬ i < 8) : m.testBit i = false := by
  apply Nat.testBit_lt_two_pow
  calc m < 2 ^ 8 := hm
    _ ≤ 2 ^ i := Nat.pow_le_pow_right (by decide) (by omega)

theorem planeOps_lor (k : Registers) (c m a b : Nat) (hm : m < 256) (hab : a ||| b = 255) :
    planeOp0 k c m a ||| planeOp1 k c m b = 255 := by
  have hbits : ∀ i, (a.testBit i || b.testBit i) = decide (i < 8) := by
    intro i
    rw [← Nat.testBit_lor, hab, testBit_255]
  apply Nat.eq_of_testBit_eq
  intro i
  have hi := hbits i
  rw [testBit_255, Nat.testBit_lor]
  by_cases h8 : i < 8
  · unfold planeOp0 planeOp1
    split_ifs <;>
      simp only [testBit_setBits, testBit_clearBits, h8, decide_True] at hi ⊢ <;>
      revert hi <;>
      cases a.testBit i <;> cases b.testBit i <;> cases m.testBit i <;> simp
  · have hmi : m.testBit i = false := testBit_of_lt_256 hm h8
    unfold planeOp0 planeOp1
    split_ifs <;>
      simp only [testBit_setBits, testBit_clearBits, h8, decide_False, hmi] at hi ⊢ <;>
      revert hi <;>
      cases a.testBit i <;> cases b.testBit i <;> simp

theorem byteAt_two (d : Device) (p0 p1 : List Nat) (hb : d.buffer = [p0, p1]) (i : Nat) :
    byteAt d 0 i = p0.getD i 0 ∧ byteAt d 1 i = p1.getD i 0 := by
  unfold byteAt plane
  rw [hb]
  exact ⟨rfl, rfl⟩

theorem getD_set (p : List Nat) (j i v : Nat) (hj : j < p.length) :
    (p.set j v).getD i 0 = if i = j then v else p.getD i 0 := by
  rw [List.getD_eq_getElem?_getD, List.getD_eq_getElem?_getD, List.getElem?_set]
  by_cases hij : i = j
  · subst hij
    simp [hj]
  · have hji : ¬ j = i := fun h => hij h.symm
    simp [hij, hji]

theorem getD_replicate (n v i : Nat) (hi : i < n) : (List.replicate n v).getD i 0 = v := by
  rw [List.getD_eq_getElem?_getD, List.getElem?_replicate, if_pos hi]
  rfl

theorem Configured_inv {k : Registers} {d : Device} (h : Configured k d) :
    TwoPlanes d ∧ NoBothClear d := by
  induction h with
  | configure cfg d0 d hw hw' _ hc =>
    have hd := Configure_memory hc
    subst hd
    refine ⟨⟨_, _, rfl, by simp [configuredMemory], by simp [configuredMemory]⟩, ?_⟩
    intro i hi
    obtain ⟨e0, e1⟩ := byteAt_two (configuredMemory cfg) _ _ rfl i
    rw [e0, e1]
    have hi' : i < resolvedBufferLength cfg := hi
    rw [getD_replicate _ _ _ hi']
    rfl
  | setPixel d d' x y c _ _ _ _ hs ih =>
    obtain ⟨⟨p0, p1, hb, h0, h1⟩, hn⟩ := ih
    rcases SetPixel_cases hs with he | he
    · subst he
      exact ⟨⟨p0, p1, hb, h0, h1⟩, hn⟩
    · rcases SetEPDPixel_cases hb (h0.trans h1.symm) he with he' | ⟨_, _, hj, he'⟩
      · subst he'
        exact ⟨⟨p0, p1, hb, h0, h1⟩, hn⟩
      · subst he'
        refine ⟨⟨_, _, rfl, by simpa using h0, by simpa using h1⟩, ?_⟩
        intro i hi
        obtain ⟨e0, e1⟩ := byteAt_two _ _ _ (rfl : ({ d with buffer := _ } : Device).buffer = _) i
        obtain ⟨f0, f1⟩ := byteAt_two d p0 p1 hb i
        have hji := hn i hi
        rw [f0, f1] at hji
        rw [e0, e1, getD_set _ _ _ _ hj, getD_set _ _ _ _ (by omega)]
        by_cases hij : i = (byteIndex d (xy d x y).1 (xy d x y).2).toNat
        · rw [if_pos hij, if_pos hij, ← hij]
          exact planeOps_lor k _ _ _ _ (bitMask_lt _) hji
        · rw [if_neg hij, if_neg hij]
          exact hji
  | setEPDPixel d d' x y c _ _ _ _ hs ih =>
    obtain ⟨⟨p0, p1, hb, h0, h1⟩, hn⟩ := ih
    rcases SetEPDPixel_cases hb (h0.trans h1.symm) hs with he' | ⟨_, _, hj, he'⟩
    · subst he'
      exact ⟨⟨p0, p1, hb, h0, h1⟩, hn⟩
    · subst he'
      refine ⟨⟨_, _, rfl, by simpa using h0, by simpa using h1⟩, ?_⟩
      intro i hi
      obtain ⟨e0, e1⟩ := byteAt_two _ _ _ (rfl : ({ d with buffer := _ } : Device).buffer = _) i
      obtain ⟨f0, f1⟩ := byteAt_two d p0 p1 hb i
      have hji := hn i hi
      rw [f0, f1] at hji
      rw [e0, e1, getD_set _ _ _ _ hj, getD_set _ _ _ _ (by omega)]
      by_cases hij : i = (byteIndex d x y).toNat
      · rw [if_pos hij, if_pos hij, ← hij]
        exact planeOps_lor k _ _ _ _ (bitMask_lt _) hji
      · rw [if_neg hij, if_neg hij]
        exact hji
  | setRotation d r _ _ ih =>
    obtain ⟨⟨p0, p1, hb, h0, h1⟩, hn⟩ := ih
    exact ⟨⟨p0, p1, hb, h0, h1⟩, hn⟩
  | clearBuffer d d' _ hs ih =>
    obtain ⟨htp, _⟩ := ih
    rw [ClearBuffer_eq htp] at hs
    have hd := (Option.some.inj hs).symm
    subst hd
    refine ⟨⟨_, _, rfl, by simp, by simp⟩, ?_⟩
    intro i hi
    obtain ⟨e0, e1⟩ := byteAt_two _ _ _ (rfl : ({ d with buffer := _ } : Device).buffer = _) i
    rw [e0, e1]
    have hi' : i < d.bufferLength := hi
    rw [getD_replicate _ _ _ hi']
    rfl

theorem SetEPDPixel_negative_index (k : Registers) (d : Device) (x y : Int) (c : Nat)
    (ho : ¬ outside d x y) (hneg : byteIndex d x y < 0) : SetEPDPixel k d x y c = none := by
  unfold outside at ho
  unfold SetEPDPixel
  rw [if_neg ho]
  simp only [updByte_neg _ _ _ hneg]
  split_ifs <;> rfl

/-! ## C1: pixel writes on the default device -/

/-- C1 (evaluation at the failing input). On the device configured with the
defaults (128 x 296, logical width 128, no rotation) the in-range coordinate
(0, 256) gets the `int16` byte index `(0 + 256*128) / 8 = -4096`, because
`256*128` wraps to `-32768`; `SetPixel(0, 256, RGBA(0,0,0,255))` then indexes
the plane out of range and does not complete. -/
theorem SetPixel_default_row_256_fails :
    byteIndex (configuredMemory defaultConfig) 0 256 = -4096 ∧
    (Configure sampleRegisters defaultConfig newDevice { trace := [], busy := [true] }).bind
      (fun r => SetPixel sampleRegisters r.1 0 256 { R := 0, G := 0, B := 0, A := 255 })
      = none := by
  refine ⟨by decide, ?_⟩
  rw [Configure_of_busy sampleRegisters defaultConfig newDevice _ 0 [] rfl]
  simp only [Option.some_bind]
  rw [SetPixel_eq_classify]
  have hxy : xy (configuredMemory defaultConfig) 0 256 = (0, 256) := by decide
  rw [hxy]
  rw [if_neg (by decide)]
  exact SetEPDPixel_negative_index _ _ _ _ _ (by decide) (by decide)

/-! ## C2: out-of-range writes are dropped -/

/-- C2. For every device state (so for every configured one), every rotation
and every pair `(x, y)` whose transformed coordinate `xy d x y` lies outside
the visible extent `[0, width) x [0, height)` or outside the logical extent
`[0, logicalWidth) x [0, height)`, `SetPixel` returns normally and the device,
hence both planes, is unchanged, whatever the colour. -/
theorem SetPixel_out_of_range_unchanged (k : Registers) (d : Device) (x y : Int) (c : RGBA)
    (h : ¬ (0 ≤ (xy d x y).1 ∧ (xy d x y).1 < d.width ∧
            0 ≤ (xy d x y).2 ∧ (xy d x y).2 < d.height) ∨
         ¬ (0 ≤ (xy d x y).1 ∧ (xy d x y).1 < d.logicalWidth ∧
            0 ≤ (xy d x y).2 ∧ (xy d x y).2 < d.height)) :
    SetPixel k d x y c = some d := by
  rw [SetPixel_eq_classify, if_pos]
  unfold outside
  rcases h with h | h
  · left
    by_contra hn
    apply h
    simp only [not_or, not_lt] at hn
    omega
  · by_cases hv : (xy d x y).1 ≥ d.logicalWidth
    · exact Or.inr hv
    · left
      by_contra hn
      apply h
      simp only [not_or, not_lt] at hn
      omega

/-- C2 witness: on the default device without rotation, `x = width = 128` is
dropped. -/
theorem SetPixel_out_of_range_unchanged_witness :
    (¬ (0 ≤ (xy (configuredMemory defaultConfig) 128 0).1 ∧
          (xy (configuredMemory defaultConfig) 128 0).1 < (configuredMemory defaultConfig).width ∧
          0 ≤ (xy (configuredMemory defaultConfig) 128 0).2 ∧
          (xy (configuredMemory defaultConfig) 128 0).2 < (configuredMemory defaultConfig).height) ∨
       ¬ (0 ≤ (xy (configuredMemory defaultConfig) 128 0).1 ∧
          (xy (configuredMemory defaultConfig) 128 0).1
            < (configuredMemory defaultConfig).logicalWidth ∧
          0 ≤ (xy (configuredMemory defaultConfig) 128 0).2 ∧
          (xy (configuredMemory defaultConfig) 128 0).2 < (configuredMemory defaultConfig).height)) ∧
    SetPixel sampleRegisters (configuredMemory defaultConfig) 128 0
      { R := 255, G := 0, B := 0, A := 255 } = some (configuredMemory defaultConfig) :=
  ⟨by decide,
    SetPixel_out_of_range_unchanged sampleRegisters (configuredMemory defaultConfig) 128 0
      { R := 255, G := 0, B := 0, A := 255 } (by decide)⟩

/-! ## C3: colour classification -/

/-- C3. `SetPixel` hands `classify k c` to `SetEPDPixel`; `classify` depends on
the R, G and B channels only, and it is `COLORED` iff R is non-zero and G and B
are zero, `BLACK` iff G or B is non-zero, `WHITE` iff R, G and B are all zero;
the three cases are exclusive and exhaustive. -/
theorem classify_three_classes (k : Registers) (c : RGBA) (hk : k.distinctColors) :
    (∀ (d : Device) (x y : Int), SetPixel k d x y c
        = if outside d (xy d x y).1 (xy d x y).2 ∨ (xy d x y).1 ≥ d.logicalWidth then some d
          else SetEPDPixel k d (xy d x y).1 (xy d x y).2 (classify k c)) ∧
    (∀ a : Nat, classify k { c with A := a } = classify k c) ∧
    (classify k c = COLORED ↔ c.R ≠ 0 ∧ c.G = 0 ∧ c.B = 0) ∧
    (classify k c = BLACK ↔ c.G ≠ 0 ∨ c.B ≠ 0) ∧
    (classify k c = k.WHITE ↔ c.R = 0 ∧ c.G = 0 ∧ c.B = 0) ∧
    (classify k c = COLORED ∨ classify k c = BLACK ∨ classify k c = k.WHITE) := by
  obtain ⟨hwb, hwc⟩ := hk
  have hbc : BLACK ≠ COLORED := by decide
  refine ⟨fun d x y => SetPixel_eq_classify k d x y c, fun a => rfl, ?_, ?_, ?_, ?_⟩
  · unfold classify
    split_ifs with h1 h2
    · exact ⟨fun _ => h1, fun _ => rfl⟩
    · exact ⟨fun h => absurd h hbc, fun h => absurd h h1⟩
    · exact ⟨fun h => absurd h hwc, fun h => absurd h h1⟩
  · unfold classify
    split_ifs with h1 h2
    · constructor
      · intro h; exact absurd h.symm hbc
      · intro h; rcases h with h | h
        · exact absurd h1.2.1 h
        · exact absurd h1.2.2 h
    · exact ⟨fun _ => h2, fun _ => rfl⟩
    · exact ⟨fun h => absurd h hwb, fun h => absurd h h2⟩
  · unfold classify
    split_ifs with h1 h2
    · constructor
      · intro h; exact absurd h.symm hwc
      · intro h; exact absurd h.1 h1.1
    · constructor
      · intro h; exact absurd h.symm hwb
      · intro h; rcases h2 with h2 | h2
        · exact absurd h.2.1 h2
        · exact absurd h.2.2 h2
    · constructor
      · intro _
        simp only [not_or, not_not, not_and] at h1 h2
        refine ⟨?_, h2.1, h2.2⟩
        by_contra hr
        exact absurd h2.2 (h1 hr h2.1)
      · intro _; rfl
  · unfold classify
    split_ifs
    · exact Or.inl rfl
    · exact Or.inr (Or.inl rfl)
    · exact Or.inr (Or.inr rfl)

/-- C3 witness: `RGBA(200, 0, 0, 255)` with the sample constants. -/
theorem classify_three_classes_witness :
    sampleRegisters.distinctColors ∧
    classify sampleRegisters { R := 200, G := 0, B := 0, A := 255 } = COLORED :=
  ⟨by decide,
    (classify_three_classes sampleRegisters { R := 200, G := 0, B := 0, A := 255 }
      (by decide)).2.2.1.mpr (by decide)⟩

/-! ## C4: rotation round trip -/

theorem wrap16_sub_sub (w x : Int) (hx : isInt16 x) :
    wrap16 (wrap16 (w - wrap16 (wrap16 (w - x) - 1)) - 1) = x := by
  unfold isInt16 at hx
  unfold wrap16
  omega

/-- C4 (counterexample). On the default 128 x 296 device the visible coordinate
(0, 0) goes to (127, 0) under 90 degrees and from there to (0, 168) under 270
degrees: the round trip does not return (0, 0). -/
theorem xy_round_trip_default_fails :
    ¬ outside (configuredMemory defaultConfig) 0 0 ∧
    xy (SetRotation (configuredMemory defaultConfig) Rotation90) 0 0 = (127, 0) ∧
    roundTrip (configuredMemory defaultConfig) Rotation90 0 0 = (0, 168) ∧
    roundTrip (configuredMemory defaultConfig) Rotation90 0 0 ≠ (0, 0) := by
  decide

/-- C4 (amended). For every device and every `int16` coordinate, `xy` under
rotation `r` followed by `xy` under the paired rotation returns the original
coordinate when `r` is 0 or 180 degrees, and for every `r` when width equals
height. -/
theorem xy_round_trip_amended (d : Device) (r : Nat) (x y : Int) (hx : isInt16 x)
    (hy : isInt16 y) (hr : r = NoRotation ∨ r = Rotation180 ∨ d.width = d.height) :
    roundTrip d r x y = (x, y) := by
  unfold roundTrip inverseRotation
  by_cases h1 : r = Rotation90
  · subst h1
    have hwh : d.width = d.height := by
      rcases hr with h | h | h
      · exact absurd h (by decide)
      · exact absurd h (by decide)
      · exact h
    simp only [xy, SetRotation, NoRotation, Rotation90, Rotation180, Rotation270, if_true]
    simp only [OfNat.ofNat_ne_zero, OfNat.one_ne_ofNat, OfNat.ofNat_ne_one, if_false,
      Nat.succ_ne_self, Nat.reduceEqDiff, one_ne_zero]
    simp only [if_true, ← hwh, wrap16_sub_sub _ _ hy]
  · by_cases h3 : r = Rotation270
    · subst h3
      have hwh : d.width = d.height := by
        rcases hr with h | h | h
        · exact absurd h (by decide)
        · exact absurd h (by decide)
        · exact h
      simp only [xy, SetRotation, NoRotation, Rotation90, Rotation180, Rotation270, if_true]
      simp only [OfNat.ofNat_ne_zero, OfNat.one_ne_ofNat, OfNat.ofNat_ne_one, if_false,
        Nat.succ_ne_self, Nat.reduceEqDiff, one_ne_zero]
      simp only [if_true, hwh, wrap16_sub_sub _ _ hx]
    · rw [if_neg h1, if_neg h3]
      by_cases h0 : r = NoRotation
      · simp [xy, SetRotation, h0]
      · by_cases h2 : r = Rotation180
        · subst h2
          simp only [xy, SetRotation, NoRotation, Rotation90, Rotation180, Rotation270]
          simp only [OfNat.ofNat_ne_zero, OfNat.one_ne_ofNat, OfNat.ofNat_ne_one, if_false,
            Nat.succ_ne_self, Nat.reduceEqDiff, one_ne_zero, if_true]
          rw [wrap16_sub_sub _ _ hx, wrap16_sub_sub _ _ hy]
        · simp [xy, SetRotation, h0, h1, h2, h3]

/-- C4 witness (amended): 180 degrees on the default device at (5, 7). -/
theorem xy_round_trip_amended_witness :
    (isInt16 5 ∧ isInt16 7 ∧
      (Rotation180 = NoRotation ∨ Rotation180 = Rotation180 ∨
        (configuredMemory defaultConfig).width = (configuredMemory defaultConfig).height)) ∧
    roundTrip (configuredMemory defaultConfig) Rotation180 5 7 = (5, 7) :=
  ⟨by decide,
    xy_round_trip_amended (configuredMemory defaultConfig) Rotation180 5 7 (by decide)
      (by decide) (by decide)⟩

/-- What the 90/270 degree round trips return on every device: the original
coordinate shifted by the difference of height and width. -/
theorem xy_round_trip_quarter_turns (d : Device) (x y : Int) :
    roundTrip d Rotation90 x y
      = (x, wrap16 (wrap16 (d.height - wrap16 (wrap16 (d.width - y) - 1)) - 1)) ∧
    roundTrip d Rotation270 x y
      = (wrap16 (wrap16 (d.width - wrap16 (wrap16 (d.height - x) - 1)) - 1), y) := by
  constructor <;> rfl

/-! ## C5: plane layout -/

/-- C5 (evaluation at the failing input). With width 8, logical width 16 and
height 4, writing the black pixel (0, 1) clears bit 7 of byte
`(0 + 1*8)/8 = 1` of plane 0 and leaves byte `(1*16 + 0)/8 = 2` untouched: the
rows are packed at `width`, not `logicalWidth`, bits per row. -/
theorem SetPixel_packs_rows_at_width :
    byteIndex (configuredMemory wideRowConfig) 0 1 = 1 ∧
    ((Configure sampleRegisters wideRowConfig newDevice { trace := [], busy := [true] }).bind
      (fun r => SetPixel sampleRegisters r.1 0 1 { R := 0, G := 0, B := 1, A := 255 })).map
        (fun d => d.buffer)
      = some [[0xFF, 0x7F, 0xFF, 0xFF, 0xFF, 0xFF, 0xFF, 0xFF],
          [0xFF, 0xFF, 0xFF, 0xFF, 0xFF, 0xFF, 0xFF, 0xFF]] := by
  decide

/-! ## C6: the both-bits-clear state is never produced -/

/-- C6. On every device reached from `Configure` by any finite sequence of
completed `SetPixel`, `SetEPDPixel`, `SetRotation` and `ClearBuffer` calls (any
coordinates, colours, `Color` values and rotations), every byte index `i` of
the planes has `plane0[i] | plane1[i] = 0xFF`, that is, no bit position is
clear in both planes. -/
theorem no_bit_clear_in_both_planes (k : Registers) (d : Device) (h : Configured k d) :
    ∀ i, i < d.bufferLength →
      byteAt d 0 i ||| byteAt d 1 i = 0xFF ∧
      ∀ b, b < 8 → ¬ ((byteAt d 0 i).testBit b = false ∧ (byteAt d 1 i).testBit b = false) := by
  intro i hi
  have hor := (Configured_inv h).2 i hi
  refine ⟨hor, ?_⟩
  intro b hb hboth
  have hbit : (byteAt d 0 i ||| byteAt d 1 i).testBit b = true := by
    rw [hor, testBit_255]
    exact decide_eq_true hb
  rw [Nat.testBit_lor, hboth.1, hboth.2] at hbit
  exact Bool.noConfusion hbit

theorem smallConfig_Configured (k : Registers) : Configured k (configuredMemory smallConfig) :=
  Configured.configure smallConfig newDevice _ { trace := [], busy := [true] } _ (by decide)
    (Configure_of_busy k smallConfig newDevice { trace := [], busy := [true] } 0 [] rfl)

theorem smallDrawn_Configured : Configured sampleRegisters smallDrawn :=
  Configured.setEPDPixel (configuredMemory smallConfig) smallDrawn 3 1 9
    (smallConfig_Configured sampleRegisters) (by decide) (by decide) (by decide) (by decide)

/-- C6 witness: byte 1 of the device drawn with the `Color` value 9. -/
theorem no_bit_clear_in_both_planes_witness :
    Configured sampleRegisters smallDrawn ∧
    byteAt smallDrawn 0 1 ||| byteAt smallDrawn 1 1 = 0xFF :=
  ⟨smallDrawn_Configured,
    (no_bit_clear_in_both_planes sampleRegisters smallDrawn smallDrawn_Configured 1
      (by decide)).1⟩

/-! ## C7: fresh and cleared buffers are white -/

theorem and_255 (m : Nat) (hm : m < 256) : 255 &&& m = m := by
  apply Nat.eq_of_testBit_eq
  intro i
  rw [Nat.testBit_and, testBit_255]
  by_cases h8 : i < 8
  · simp [h8]
  · simp [h8, testBit_of_lt_256 hm h8]

theorem AllWhite_of_buffer (d : Device)
    (hb : d.buffer = [List.replicate d.bufferLength 0xFF, List.replicate d.bufferLength 0xFF]) :
    AllWhite d := by
  have hbytes : ∀ i, i < d.bufferLength → byteAt d 0 i = 0xFF ∧ byteAt d 1 i = 0xFF := by
    intro i hi
    obtain ⟨e0, e1⟩ := byteAt_two d _ _ hb i
    rw [e0, e1, getD_replicate _ _ _ hi]
    exact ⟨rfl, rfl⟩
  refine ⟨hb, hbytes, ?_⟩
  intro x y ho _ hlt
  have hx : 0 ≤ x := by
    unfold outside at ho
    simp only [not_or, not_lt] at ho
    exact ho.1
  obtain ⟨e0, e1⟩ := hbytes _ hlt
  rw [e0, e1, and_255 _ (bitMask_lt x)]
  refine ⟨?_, rfl, rfl⟩
  rw [bitMask_eq_two_pow hx]
  exact Nat.pos_iff_ne_zero.mp (Nat.pow_pos (by decide))

/-- C7. `Configure` (whenever the busy line reads high at some poll, so that it
returns) leaves every byte of both planes at `0xFF`; `ClearBuffer` completes on
every configured device, whatever its planes hold, leaves every byte of both
planes at `0xFF` and changes no other field; in both cases the bit addressed by
an in-range coordinate is set in both planes (white). -/
theorem fresh_and_cleared_buffers_white (k : Registers) (cfg : Config) (d0 d : Device)
    (hw : Hw) (hb : true ∈ hw.busy) (hd : Configured k d) :
    (∃ d1 hw1, Configure k cfg d0 hw = some (d1, hw1) ∧ AllWhite d1) ∧
    (∃ d', ClearBuffer d = some d' ∧ AllWhite d' ∧
      d'.bufferLength = d.bufferLength ∧ d'.width = d.width ∧ d'.height = d.height ∧
      d'.logicalWidth = d.logicalWidth ∧ d'.rotation = d.rotation) := by
  constructor
  · obtain ⟨n, rest, hsplit⟩ := busy_split hw.busy hb
    exact ⟨_, _, Configure_of_busy k cfg d0 hw n rest hsplit, AllWhite_of_buffer _ rfl⟩
  · exact ⟨_, ClearBuffer_eq (Configured_inv hd).1, AllWhite_of_buffer _ rfl, rfl, rfl, rfl,
      rfl, rfl⟩

/-- C7 witness: the small device after a pixel was drawn. -/
theorem fresh_and_cleared_buffers_white_witness :
    (true ∈ ({ trace := [], busy := [false, true] } : Hw).busy ∧
      Configured sampleRegisters smallDrawn) ∧
    ∃ d', ClearBuffer smallDrawn = some d' ∧ AllWhite d' :=
  ⟨⟨by decide, smallDrawn_Configured⟩,
    (fresh_and_cleared_buffers_white sampleRegisters smallConfig newDevice smallDrawn
      { trace := [], busy := [false, true] } (by decide) smallDrawn_Configured).2.imp
      (fun _ h => ⟨h.1, h.2.1⟩)⟩

/-! ## C8: configuration defaults -/

/-- C8. For every `Config`, `Configure` (whenever the busy line reads high at
some poll) returns with `width`, `height` and `logicalWidth` each equal to the
corresponding `Config` field when that is non-zero and to 128, 296, 128
otherwise, independently of one another, and with `rotation = Config.Rotation`;
the zero-valued `Config` gives 128, 296, 128 and no rotation. -/
theorem Configure_defaults (k : Registers) (cfg : Config) (d0 : Device) (hw : Hw)
    (hb : true ∈ hw.busy) :
    ∃ d hw', Configure k cfg d0 hw = some (d, hw') ∧
      d.width = (if cfg.Width ≠ 0 then cfg.Width else 128) ∧
      d.height = (if cfg.Height ≠ 0 then cfg.Height else 296) ∧
      d.logicalWidth = (if cfg.LogicalWidth ≠ 0 then cfg.LogicalWidth else 128) ∧
      d.rotation = cfg.Rotation ∧
      (cfg = defaultConfig →
        d.width = 128 ∧ d.height = 296 ∧ d.logicalWidth = 128 ∧ d.rotation = NoRotation) := by
  obtain ⟨n, rest, hsplit⟩ := busy_split hw.busy hb
  refine ⟨_, _, Configure_of_busy k cfg d0 hw n rest hsplit, rfl, rfl, rfl, rfl, ?_⟩
  intro hcfg
  subst hcfg
  exact ⟨rfl, rfl, rfl, rfl⟩

/-- C8 witness: the zero-valued `Config`, busy line high at the second poll. -/
theorem Configure_defaults_witness :
    true ∈ ({ trace := [], busy := [false, true] } : Hw).busy ∧
    ∃ d hw', Configure sampleRegisters defaultConfig newDevice
        { trace := [], busy := [false, true] } = some (d, hw') ∧
      d.width = 128 ∧ d.height = 296 ∧ d.logicalWidth = 128 ∧ d.rotation = NoRotation := by
  refine ⟨by decide, ?_⟩
  obtain ⟨d, hw', hc, _, _, _, _, hz⟩ :=
    Configure_defaults sampleRegisters defaultConfig newDevice
      { trace := [], busy := [false, true] } (by decide)
  exact ⟨d, hw', hc, hz rfl⟩

/-! ## C9: buffer size -/

theorem toUint32_of_pos {v : Int} (h0 : 0 < v) (h1 : v ≤ 32767) : (toUint32 v : Int) = v := by
  unfold toUint32
  omega

/-- C9. For every `Config` whose resolved logical width and height are positive
`int16` values, `Configure` (whenever the busy line reads high at some poll)
returns with `bufferLength = floor(logicalWidth * height / 8)`, the product not
being reduced by the `uint32` arithmetic, and with exactly two planes of
`bufferLength` bytes each; with the defaults this is 4736 bytes per plane. -/
theorem Configure_bufferLength (k : Registers) (cfg : Config) (d0 : Device) (hw : Hw)
    (hb : true ∈ hw.busy)
    (hl : 0 < resolvedLogicalWidth cfg ∧ resolvedLogicalWidth cfg ≤ 32767)
    (hh : 0 < resolvedHeight cfg ∧ resolvedHeight cfg ≤ 32767) :
    ∃ d hw', Configure k cfg d0 hw = some (d, hw') ∧
      d.logicalWidth = resolvedLogicalWidth cfg ∧ d.height = resolvedHeight cfg ∧
      (d.bufferLength : Int) = d.logicalWidth * d.height / 8 ∧
      d.logicalWidth * d.height < 4294967296 ∧
      d.buffer.length = 2 ∧ (∀ p ∈ d.buffer, p.length = d.bufferLength) ∧
      (cfg = defaultConfig → d.bufferLength = 4736) := by
  obtain ⟨n, rest, hsplit⟩ := busy_split hw.busy hb
  refine ⟨_, _, Configure_of_busy k cfg d0 hw n rest hsplit, rfl, rfl, ?_, ?_, rfl, ?_, ?_⟩
  · show ((resolvedBufferLength cfg : Nat) : Int) = resolvedLogicalWidth cfg * resolvedHeight cfg / 8
    unfold resolvedBufferLength
    have e1 := toUint32_of_pos hl.1 hl.2
    have e2 := toUint32_of_pos hh.1 hh.2
    have hprod : toUint32 (resolvedLogicalWidth cfg) * toUint32 (resolvedHeight cfg)
        < 4294967296 := by
      have a1 : toUint32 (resolvedLogicalWidth cfg) ≤ 32767 := by omega
      have a2 : toUint32 (resolvedHeight cfg) ≤ 32767 := by omega
      calc toUint32 (resolvedLogicalWidth cfg) * toUint32 (resolvedHeight cfg)
          ≤ 32767 * 32767 := Nat.mul_le_mul a1 a2
        _ < 4294967296 := by decide
    rw [Nat.mod_eq_of_lt hprod]
    push_cast
    rw [e1, e2]
  · show resolvedLogicalWidth cfg * resolvedHeight cfg < 4294967296
    have a1 := hl.2
    have a2 := hh.2
    nlinarith [hl.1, hh.1]
  · intro p hp
    simp only [configuredMemory, List.mem_cons, List.mem_singleton, List.not_mem_nil,
      or_false, or_self] at hp
    rw [hp]
    simp [configuredMemory]
  · intro hcfg
    subst hcfg
    decide

/-- C9 witness: the defaults give 4736 bytes per plane. -/
theorem Configure_bufferLength_witness :
    (true ∈ ({ trace := [], busy := [true] } : Hw).busy ∧
      (0 < resolvedLogicalWidth defaultConfig ∧ resolvedLogicalWidth defaultConfig ≤ 32767) ∧
      (0 < resolvedHeight defaultConfig ∧ resolvedHeight defaultConfig ≤ 32767)) ∧
    ∃ d hw', Configure sampleRegisters defaultConfig newDevice
        { trace := [], busy := [true] } = some (d, hw') ∧ d.bufferLength = 4736 := by
  refine ⟨by decide, ?_⟩
  obtain ⟨d, hw', hc, _, _, _, _, _, _, hz⟩ :=
    Configure_bufferLength sampleRegisters defaultConfig newDevice
      { trace := [], busy := [true] } (by decide) (by decide) (by decide)
  exact ⟨d, hw', hc, hz rfl⟩

/-! ## C10: `Display` -/

theorem planeEvents_append (p q : List Nat) :
    planeEvents (p ++ q) = planeEvents p ++ planeEvents q := by
  induction p with
  | nil => rfl
  | cons b bs ih => simp [planeEvents, ih]

theorem emit_emit (hw : Hw) (a b : List Event) : (hw.emit a).emit b = hw.emit (a ++ b) := by
  simp [Hw.emit]

theorem sendLoop_eq (d : Device) (i : Nat) (p : List Nat) (hp : d.buffer[i]? = some p) :
    ∀ (n : Nat) (hw : Hw), n ≤ p.length →
      forLoop (fun j hw => sendByte d i j hw) n hw
        = some (hw.emit (planeEvents (p.take n))) := by
  intro n
  induction n with
  | zero =>
    intro hw _
    simp [forLoop, planeEvents, Hw.emit]
  | succ n ih =>
    intro hw hn
    have hlt : n < p.length := by omega
    simp only [forLoop]
    rw [ih hw (by omega), Option.some_bind]
    unfold sendByte
    simp only [hp, List.getElem?_eq_getElem hlt]
    rw [List.take_succ, List.getElem?_eq_getElem hlt, planeEvents_append]
    simp [SendData, Hw.emit, planeEvents, dataEvents]

theorem Display_eq (k : Registers) (d : Device) (hw : Hw) (n : Nat) (rest : List Bool)
    (htp : TwoPlanes d) (hb : hw.busy = List.replicate n false ++ true :: rest) :
    Display k d hw
      = some (d, { trace := hw.trace ++ displayEvents k (plane d 0) (plane d 1) n,
                   busy := rest }, GoError.nil) := by
  obtain ⟨p0, p1, hbuf, h0, h1⟩ := htp
  have e0 : d.buffer[0]? = some p0 := by simp [hbuf]
  have e1 : d.buffer[1]? = some p1 := by simp [hbuf]
  have hp0 : plane d 0 = p0 := by simp [plane, hbuf]
  have hp1 : plane d 1 = p1 := by simp [plane, hbuf]
  unfold Display
  simp only [BLACK, COLORED, Nat.sub_self, Nat.add_one_sub_one]
  rw [sendLoop_eq d 0 p0 e0 d.bufferLength _ (le_of_eq h0.symm), Option.some_bind,
    sendLoop_eq d 1 p1 e1 d.bufferLength _ (le_of_eq h1.symm), Option.some_bind]
  rw [← h0, List.take_length, h0, ← h1, List.take_length]
  unfold TurnOnDisplay
  rw [WaitUntilIdle_eq _ n rest (by simpa [SendCommand, Hw.emit] using hb)]
  simp [hp0, hp1, displayEvents, SendCommand, Hw.emit, commandEvents]

/-- C10. On every configured device, when the busy line reads low `n` times
and then high, `Display` returns `nil`, leaves the device memory unchanged and
has emitted, in this order: the command `DATA_START_TRANSMISSION_1`, the
`bufferLength` bytes of plane 0 in index order, the command
`DATA_START_TRANSMISSION_2`, the `bufferLength` bytes of plane 1 in index
order, the command `0x12` and the idle wait (with 2 ms sleeps around each
plane). After `Configure` with the defaults, `ClearBuffer` and
`SetPixel(0, 0, colored)` the plane-0 transmission starts with the data byte
`0xFF` and the plane-1 transmission with `0x7F`. -/
theorem Display_sends_both_planes (k : Registers) (d : Device) (hw : Hw) (n : Nat)
    (rest : List Bool) (hk : k.distinctColors) (hd : Configured k d)
    (hb : hw.busy = List.replicate n false ++ true :: rest) :
    Display k d hw
      = some (d, { trace := hw.trace ++ displayEvents k (plane d 0) (plane d 1) n,
                   busy := rest }, GoError.nil) ∧
    (plane d 0).length = d.bufferLength ∧ (plane d 1).length = d.bufferLength ∧
    (∀ (d0 d1 : Device) (hw0 hw1 : Hw) (r a : Nat),
      Configure k defaultConfig d0 hw0 = some (d1, hw1) → r ≠ 0 →
      ∃ d2 d3 t0 t1, ClearBuffer d1 = some d2 ∧
        SetPixel k d2 0 0 { R := r, G := 0, B := 0, A := a } = some d3 ∧
        planeEvents (plane d3 0) = dataEvents 0xFF ++ t0 ∧
        planeEvents (plane d3 1) = dataEvents 0x7F ++ t1) := by
  have htp := (Configured_inv hd).1
  refine ⟨Display_eq k d hw n rest htp hb, ?_, ?_, ?_⟩
  · obtain ⟨p0, p1, hbuf, h0, _⟩ := htp
    simpa [plane, hbuf] using h0
  · obtain ⟨p0, p1, hbuf, _, h1⟩ := htp
    simpa [plane, hbuf] using h1
  · intro d0 d1 hw0 hw1 r a hc hr
    have hd1 := Configure_memory hc
    subst hd1
    have hcl : ClearBuffer (configuredMemory defaultConfig)
        = some (configuredMemory defaultConfig) :=
      ClearBuffer_eq ⟨_, _, rfl, by simp [configuredMemory], by simp [configuredMemory]⟩
    have hcls : classify k { R := r, G := 0, B := 0, A := a } = COLORED := by
      simp [classify, hr]
    have hxy : xy (configuredMemory defaultConfig) 0 0 = (0, 0) := by decide
    have hset := SetPixel_eq_classify k (configuredMemory defaultConfig) 0 0
      { R := r, G := 0, B := 0, A := a }
    rw [hxy, if_neg (by decide), hcls,
      SetEPDPixel_inside k _ _ _ 0 0 COLORED rfl rfl (by decide)] at hset
    have hidx : byteIndex (configuredMemory defaultConfig) 0 0 = 0 := by decide
    obtain ⟨m, hm⟩ : ∃ m, resolvedBufferLength defaultConfig = m + 1 := ⟨4735, by decide⟩
    have hop0 : planeOp0 k COLORED (bitMask 0) 0xFF = 0xFF := by
      unfold planeOp0
      rw [if_neg (fun h => hk.2 h.symm), if_pos rfl]
      decide
    have hop1 : planeOp1 k COLORED (bitMask 0) 0xFF = 0x7F := by
      unfold planeOp1
      rw [if_neg (fun h => hk.2 h.symm), if_pos rfl]
      decide
    rw [hidx, hm] at hset
    simp only [Int.toNat_zero, List.length_replicate, le_refl, Nat.zero_lt_succ, and_self,
      if_true, List.replicate_succ, List.set_cons_zero, List.getD_cons_zero, hop0, hop1,
      List.length_cons, true_and] at hset
    exact ⟨_, _, planeEvents (List.replicate m 0xFF), planeEvents (List.replicate m 0xFF), hcl,
      hset, by simp [plane, planeEvents], by simp [plane, planeEvents]⟩

/-- C10 witness: `Display` on the small drawn device, busy line high at the
second poll. -/
theorem Display_sends_both_planes_witness :
    (sampleRegisters.distinctColors ∧ Configured sampleRegisters smallDrawn ∧
      ({ trace := [], busy := [false, true] } : Hw).busy
        = List.replicate 1 false ++ true :: []) ∧
    Display sampleRegisters smallDrawn { trace := [], busy := [false, true] }
      = some (smallDrawn,
          { trace := [] ++ displayEvents sampleRegisters (plane smallDrawn 0)
              (plane smallDrawn 1) 1,
            busy := [] }, GoError.nil) :=
  ⟨⟨by decide, smallDrawn_Configured, rfl⟩,
    (Display_sends_both_planes sampleRegisters smallDrawn { trace := [], busy := [false, true] }
      1 [] (by decide) smallDrawn_Configured rfl).1⟩

/-! ## Pixel writes where the `int16` index does not wrap -/

theorem Configured_bufferLength {k : Registers} {d : Device} (h : Configured k d) :
    d.bufferLength = (toUint32 d.logicalWidth * toUint32 d.height) % 4294967296 / 8 := by
  induction h with
  | configure cfg d0 d hw hw' _ hc =>
    have hd := Configure_memory hc
    subst hd
    rfl
  | setPixel d d' x y c hd _ _ _ hs ih =>
    obtain ⟨p0, p1, hb, h0, h1⟩ := (Configured_inv hd).1
    rcases SetPixel_cases hs with he | he
    · subst he; exact ih
    · rcases SetEPDPixel_cases hb (h0.trans h1.symm) he with he' | ⟨_, _, _, he'⟩
      · subst he'; exact ih
      · subst he'; exact ih
  | setEPDPixel d d' x y c hd _ _ _ hs ih =>
    obtain ⟨p0, p1, hb, h0, h1⟩ := (Configured_inv hd).1
    rcases SetEPDPixel_cases hb (h0.trans h1.symm) hs with he' | ⟨_, _, _, he'⟩
    · subst he'; exact ih
    · subst he'; exact ih
  | setRotation d r _ _ ih => exact ih
  | clearBuffer d d' hd hs ih =>
    rw [ClearBuffer_eq (Configured_inv hd).1] at hs
    have hd' := (Option.some.inj hs).symm
    subst hd'
    exact ih

theorem classify_cases (k : Registers) (c : RGBA) :
    classify k c = COLORED ∨ classify k c = BLACK ∨ classify k c = k.WHITE := by
  unfold classify
  split_ifs
  · exact Or.inl rfl
  · exact Or.inr (Or.inl rfl)
  · exact Or.inr (Or.inr rfl)

theorem testBit_planeOps (k : Registers) (c b v : Nat) (hb : b < 8) :
    (planeOp0 k c (2 ^ b) v).testBit b = (decide (c = k.WHITE) || decide (c = COLORED)) ∧
    (planeOp1 k c (2 ^ b) v).testBit b = (decide (c = k.WHITE) || !decide (c = COLORED)) := by
  unfold planeOp0 planeOp1
  by_cases h1 : c = k.WHITE
  · rw [if_pos h1, if_pos h1]
    simp [testBit_setBits, Nat.testBit_two_pow, h1]
  · rw [if_neg h1, if_neg h1]
    by_cases h2 : c = COLORED
    · rw [if_pos h2, if_pos h2]
      have h3 : ¬ COLORED = k.WHITE := fun h => h1 (h2.trans h)
      simp [testBit_setBits, testBit_clearBits, Nat.testBit_two_pow, hb, h2, h3]
    · rw [if_neg h2, if_neg h2]
      simp [testBit_setBits, testBit_clearBits, Nat.testBit_two_pow, hb, h1, h2]

/-- Rows 0 to 255 of the default device: `SetPixel` completes and the bit
`7 - (x mod 8)` of byte `(x + y*128)/8` is set in both planes for a white
pixel, set in plane 0 and clear in plane 1 for a colored one, clear in plane 0
and set in plane 1 for a black one. -/
theorem SetPixel_default_rows_below_256 (k : Registers) (d : Device) (x y : Int) (c : RGBA)
    (hk : k.distinctColors) (hd : Configured k d) (hwd : d.width = 128)
    (hht : d.height = 296) (hlw : d.logicalWidth = 128) (hrot : d.rotation = NoRotation)
    (hx : 0 ≤ x ∧ x < 128) (hy : 0 ≤ y ∧ y < 256) :
    ∃ d', SetPixel k d x y c = some d' ∧
      ((byteAt d' 0 ((x + y * 128) / 8).toNat).testBit (7 - (x % 8).toNat)
        = (decide (classify k c = k.WHITE) || decide (classify k c = COLORED))) ∧
      ((byteAt d' 1 ((x + y * 128) / 8).toNat).testBit (7 - (x % 8).toNat)
        = (decide (classify k c = k.WHITE) || decide (classify k c = BLACK))) := by
  obtain ⟨p0, p1, hb, h0, h1⟩ := (Configured_inv hd).1
  have hlen : d.bufferLength = 4736 := by
    rw [Configured_bufferLength hd, hlw, hht]; decide
  have hxy : xy d x y = (x, y) := by simp [xy, hrot]
  have hout : ¬ outside d x y := by
    unfold outside; rw [hwd, hht]; omega
  have hidx : byteIndex d x y = (x + y * 128) / 8 := by
    unfold byteIndex
    rw [hwd]
    have e1 : wrap16 (y * 128) = y * 128 := wrap16_of_isInt16 (by unfold isInt16; omega)
    have e2 : wrap16 (x + y * 128) = x + y * 128 :=
      wrap16_of_isInt16 (by unfold isInt16; omega)
    rw [e1, e2, Int.tdiv_eq_ediv (by omega) (by decide)]
  have hnn : 0 ≤ (x + y * 128) / 8 := by omega
  have hlt : ((x + y * 128) / 8).toNat < p0.length := by rw [h0, hlen]; omega
  have hset := SetPixel_eq_classify k d x y c
  rw [hxy] at hset
  simp only [] at hset
  rw [if_neg (by rw [hlw]; intro h; rcases h with h | h; exact hout h; omega),
    SetEPDPixel_inside k d p0 p1 x y _ hb (h0.trans h1.symm) hout, hidx,
    if_pos ⟨hnn, hlt⟩] at hset
  refine ⟨_, hset, ?_, ?_⟩
  · rw [(byteAt_two _ _ _ rfl _).1, getD_set _ _ _ _ hlt, if_pos rfl,
      bitMask_eq_two_pow hx.1]
    exact (testBit_planeOps k _ _ _ (by omega)).1
  · rw [(byteAt_two _ _ _ rfl _).2, getD_set _ _ _ _ (by omega), if_pos rfl,
      bitMask_eq_two_pow hx.1, (testBit_planeOps k _ _ _ (by omega)).2]
    have hcases := classify_cases k c
    have hbc : BLACK ≠ COLORED := by decide
    rcases hcases with h | h | h
    · simp [h, hk.2.symm, hbc.symm]
    · simp [h, hk.1.symm, hbc]
    · simp [h, hk.1, hk.2]

/-! ## C11: `ClearDisplay` against `Display` -/

theorem constLoop_eq (v : Nat) :
    ∀ (n : Nat) (hw : Hw),
      forLoop (fun _ hw => sendConst v hw) n hw
        = some (hw.emit (planeEvents (List.replicate n v))) := by
  intro n
  induction n with
  | zero =>
    intro hw
    simp [forLoop, planeEvents, Hw.emit]
  | succ n ih =>
    intro hw
    simp only [forLoop]
    rw [ih hw, Option.some_bind, List.replicate_succ', planeEvents_append]
    simp [sendConst, SendData, Hw.emit, planeEvents, dataEvents]

theorem Display_eq_bind (k : Registers) (d : Device) (hw : Hw) (htp : TwoPlanes d) :
    Display k d hw
      = (TurnOnDisplay (hw.emit (transmissionEvents k (plane d 0) (plane d 1)))).bind
          (fun hw1 => some (d, hw1, GoError.nil)) := by
  obtain ⟨p0, p1, hbuf, h0, h1⟩ := htp
  have e0 : d.buffer[0]? = some p0 := by simp [hbuf]
  have e1 : d.buffer[1]? = some p1 := by simp [hbuf]
  have hp0 : plane d 0 = p0 := by simp [plane, hbuf]
  have hp1 : plane d 1 = p1 := by simp [plane, hbuf]
  unfold Display
  simp only [BLACK, COLORED, Nat.sub_self, Nat.add_one_sub_one]
  rw [sendLoop_eq d 0 p0 e0 d.bufferLength _ (le_of_eq h0.symm), Option.some_bind,
    sendLoop_eq d 1 p1 e1 d.bufferLength _ (le_of_eq h1.symm), Option.some_bind]
  rw [← h0, List.take_length, h0, ← h1, List.take_length]
  congr 2
  simp [hp0, hp1, transmissionEvents, SendCommand, Hw.emit, commandEvents]

theorem ClearDisplay_eq_bind (k : Registers) (d : Device) (hw : Hw) :
    ClearDisplay k d hw
      = (TurnOnDisplay (hw.emit (transmissionEvents k (List.replicate d.bufferLength 0xFF)
            (List.replicate d.bufferLength 0xFF)))).bind
          (fun hw1 => some (d, hw1)) := by
  unfold ClearDisplay
  simp only []
  rw [constLoop_eq, Option.some_bind, constLoop_eq, Option.some_bind]
  congr 2
  simp [transmissionEvents, SendCommand, Hw.emit, commandEvents]

theorem TurnOnDisplay_eq (hw : Hw) (n : Nat) (rest : List Bool)
    (hb : hw.busy = List.replicate n false ++ true :: rest) :
    TurnOnDisplay hw
      = some { trace := hw.trace ++ commandEvents 0x12 ++ idleWaitEvents n, busy := rest } := by
  unfold TurnOnDisplay
  rw [WaitUntilIdle_eq _ n rest (by simpa [SendCommand, Hw.emit] using hb)]
  simp [SendCommand, Hw.emit, commandEvents]

/-- C11. For every device `d` (configured or not), every hardware state and
every sequence of coming busy-line readings, `ClearDisplay` on `d` emits
exactly the events (line changes, commands, data bytes, sleeps, busy reads)
and consumes exactly the readings that `Display` does on any device `dw` with
the same `bufferLength` whose two planes are all `0xFF`, and it returns exactly
when `Display` does; it returns `d` unchanged and its hardware effect is the
same for any two devices of equal `bufferLength`, whatever their planes hold. -/
theorem ClearDisplay_refines_Display (k : Registers) (d dw : Device) (hw : Hw)
    (hwhite : dw.buffer = [List.replicate dw.bufferLength 0xFF,
      List.replicate dw.bufferLength 0xFF])
    (hlen : dw.bufferLength = d.bufferLength) :
    (ClearDisplay k d hw).map (fun r => r.2) = (Display k dw hw).map (fun r => r.2.1) ∧
    (∀ d' hw', ClearDisplay k d hw = some (d', hw') → d' = d) ∧
    (∀ d2 : Device, d2.bufferLength = d.bufferLength →
      (ClearDisplay k d2 hw).map (fun r => r.2) = (ClearDisplay k d hw).map (fun r => r.2)) ∧
    (∀ (n : Nat) (rest : List Bool), hw.busy = List.replicate n false ++ true :: rest →
      ClearDisplay k d hw
        = some (d, { trace := hw.trace ++ displayEvents k (List.replicate d.bufferLength 0xFF)
                       (List.replicate d.bufferLength 0xFF) n,
                     busy := rest })) := by
  have htp : TwoPlanes dw := ⟨_, _, hwhite, by simp, by simp⟩
  have hp0 : plane dw 0 = List.replicate d.bufferLength 0xFF := by
    rw [← hlen]; simp only [plane]; rw [hwhite]; rfl
  have hp1 : plane dw 1 = List.replicate d.bufferLength 0xFF := by
    rw [← hlen]; simp only [plane]; rw [hwhite]; rfl
  refine ⟨?_, ?_, ?_, ?_⟩
  · rw [ClearDisplay_eq_bind, Display_eq_bind k dw hw htp, hp0, hp1]
    cases TurnOnDisplay (hw.emit (transmissionEvents k (List.replicate d.bufferLength 0xFF)
      (List.replicate d.bufferLength 0xFF))) <;> rfl
  · intro d' hw' h
    rw [ClearDisplay_eq_bind] at h
    cases hT : TurnOnDisplay (hw.emit (transmissionEvents k
        (List.replicate d.bufferLength 0xFF) (List.replicate d.bufferLength 0xFF))) with
    | none => rw [hT] at h; exact Option.noConfusion h
    | some hw1 =>
      rw [hT] at h
      simp only [Option.some_bind, Option.some.injEq, Prod.mk.injEq] at h
      exact h.1.symm
  · intro d2 h2
    rw [ClearDisplay_eq_bind, ClearDisplay_eq_bind, h2]
    cases TurnOnDisplay (hw.emit (transmissionEvents k (List.replicate d.bufferLength 0xFF)
      (List.replicate d.bufferLength 0xFF))) <;> rfl
  · intro n rest hb
    rw [ClearDisplay_eq_bind, TurnOnDisplay_eq _ n rest (by simpa [Hw.emit] using hb)]
    simp [Hw.emit, transmissionEvents, displayEvents]

/-- C11 witness: `ClearDisplay` on the small drawn device against `Display`
on the freshly configured small device, busy line high at the second poll. -/
theorem ClearDisplay_refines_Display_witness :
    ((configuredMemory smallConfig).buffer
        = [List.replicate (configuredMemory smallConfig).bufferLength 0xFF,
            List.replicate (configuredMemory smallConfig).bufferLength 0xFF] ∧
      (configuredMemory smallConfig).bufferLength = smallDrawn.bufferLength) ∧
    (ClearDisplay sampleRegisters smallDrawn { trace := [], busy := [false, true] }).map
        (fun r => r.2)
      = (Display sampleRegisters (configuredMemory smallConfig)
          { trace := [], busy := [false, true] }).map (fun r => r.2.1) :=
  ⟨⟨rfl, by decide⟩,
    (ClearDisplay_refines_Display sampleRegisters smallDrawn (configuredMemory smallConfig)
      { trace := [], busy := [false, true] } rfl (by decide)).1⟩

/-! ## C12: `SetRotation` -/

/-- C12. `SetRotation(r)` sets the rotation field to `r` and changes nothing
else: the planes (every byte of them), `bufferLength`, `width`, `height` and
`logicalWidth` are those of the device before the call. -/
theorem SetRotation_changes_rotation_only (d : Device) (r : Nat) :
    (SetRotation d r).rotation = r ∧
    (SetRotation d r).buffer = d.buffer ∧
    (∀ i j, byteAt (SetRotation d r) i j = byteAt d i j) ∧
    (SetRotation d r).bufferLength = d.bufferLength ∧
    (SetRotation d r).width = d.width ∧
    (SetRotation d r).height = d.height ∧
    (SetRotation d r).logicalWidth = d.logicalWidth :=
  ⟨rfl, rfl, fun _ _ => rfl, rfl, rfl, rfl, rfl⟩

/-! ## C13: `WaitUntilIdle` against `IsBusy` -/

theorem pollLoop_last_high : ∀ (busy : List Bool) (tr : List Event) (hw' : Hw),
    pollLoop busy tr = some hw' → ∃ tr', hw'.trace = tr' ++ [Event.busyGet true] := by
  intro busy
  induction busy with
  | nil => intro tr hw' h; exact Option.noConfusion h
  | cons b bs ih =>
    intro tr hw' h
    cases b with
    | true =>
      simp only [pollLoop, if_true, Option.some.injEq] at h
      subst h
      exact ⟨tr ++ commandEvents 0x71, by simp [SendCommand, Hw.emit, commandEvents]⟩
    | false =>
      simp only [pollLoop, Bool.false_eq_true, if_false] at h
      exact ih _ hw' h

/-- Whenever `WaitUntilIdle` returns, the last thing it did was to read the
busy pin as high. -/
theorem WaitUntilIdle_last_reading_high (hw hw' : Hw) (h : WaitUntilIdle hw = some hw') :
    ∃ tr', hw'.trace = tr' ++ [Event.busyGet true] :=
  pollLoop_last_high hw.busy hw.trace hw' h

/-- C13 (evaluation at the failing input). With the busy line low at the first
poll and high from the second on, `WaitUntilIdle` returns after the second
poll, having read the level high, and `IsBusy` called right after it reads the
same level and returns `true`: the display is reported busy at the very level
on which `WaitUntilIdle` returned. -/
theorem WaitUntilIdle_returns_while_IsBusy :
    WaitUntilIdle { trace := [], busy := [false, true, true] }
      = some { trace := idleWaitEvents 1, busy := [true] } ∧
    (idleWaitEvents 1).getLast? = some (Event.busyGet true) ∧
    ((WaitUntilIdle { trace := [], busy := [false, true, true] }).bind IsBusy).map
      (fun r => r.1) = some true := by
  decide

/-! ## C18: the polling of `WaitUntilIdle` -/

theorem idleWaitEvents_counts (n : Nat) :
    (idleWaitEvents n).count (Event.transfer 0x71) = n + 1 ∧
    (idleWaitEvents n).count (Event.sleepMs 10) = n ∧
    (idleWaitEvents n).count (Event.busyGet false) = n ∧
    (idleWaitEvents n).count (Event.busyGet true) = 1 := by
  induction n with
  | zero => decide
  | succ n ih =>
    obtain ⟨h1, h2, h3, h4⟩ := ih
    simp only [idleWaitEvents, List.count_append, h1, h2, h3, h4]
    refine ⟨?_, ?_, ?_, ?_⟩
    · have e : (commandEvents 0x71).count (Event.transfer 0x71) = 1 := by decide
      have e' : [Event.busyGet false, Event.sleepMs 10].count (Event.transfer 0x71) = 0 := by
        decide
      omega
    · have e : (commandEvents 0x71).count (Event.sleepMs 10) = 0 := by decide
      have e' : [Event.busyGet false, Event.sleepMs 10].count (Event.sleepMs 10) = 1 := by
        decide
      omega
    · have e : (commandEvents 0x71).count (Event.busyGet false) = 0 := by decide
      have e' : [Event.busyGet false, Event.sleepMs 10].count (Event.busyGet false) = 1 := by
        decide
      omega
    · have e : (commandEvents 0x71).count (Event.busyGet true) = 0 := by decide
      have e' : [Event.busyGet false, Event.sleepMs 10].count (Event.busyGet true) = 0 := by
        decide
      omega

/-- The events of `n` polls that read low: each is the command `0x71`, the
reading, and a sleep of 10 ms. -/
theorem idleWaitEvents_eq_rounds (n : Nat) :
    idleWaitEvents n
      = (List.replicate n (commandEvents 0x71 ++ [Event.busyGet false, Event.sleepMs 10])).flatten
        ++ (commandEvents 0x71 ++ [Event.busyGet true]) := by
  induction n with
  | zero => rfl
  | succ n ih =>
    rw [idleWaitEvents, ih, List.replicate_succ, List.flatten_cons]
    simp only [List.append_assoc]

/-- C18. When the first high busy-line reading is at position `n` (the
readings are `n` times low, then high, then `rest`), `WaitUntilIdle` returns;
what it emitted is `n` rounds of the command `0x71`, a low reading and a sleep
of 10 ms, followed by the command `0x71` and the high reading: `n + 1`
commands `0x71`, each immediately before a reading, and `n` sleeps of 10 ms,
each right after a low reading; the readings `rest` after the first high one
are left unconsumed. The method takes and returns the hardware state only: no
memory field of the device is involved. -/
theorem WaitUntilIdle_polls (hw : Hw) (n : Nat) (rest : List Bool)
    (hb : hw.busy = List.replicate n false ++ true :: rest) :
    WaitUntilIdle hw = some { trace := hw.trace ++ idleWaitEvents n, busy := rest } ∧
    idleWaitEvents n
      = (List.replicate n (commandEvents 0x71 ++ [Event.busyGet false, Event.sleepMs 10])).flatten
        ++ (commandEvents 0x71 ++ [Event.busyGet true]) ∧
    (idleWaitEvents n).count (Event.transfer 0x71) = n + 1 ∧
    (idleWaitEvents n).count (Event.sleepMs 10) = n ∧
    (idleWaitEvents n).count (Event.busyGet false) = n ∧
    (idleWaitEvents n).count (Event.busyGet true) = 1 :=
  ⟨WaitUntilIdle_eq hw n rest hb, idleWaitEvents_eq_rounds n, idleWaitEvents_counts n⟩

/-- C18 witness: two low readings, then high, then one more reading. -/
theorem WaitUntilIdle_polls_witness :
    ({ trace := [], busy := [false, false, true, false] } : Hw).busy
        = List.replicate 2 false ++ true :: [false] ∧
    WaitUntilIdle { trace := [], busy := [false, false, true, false] }
      = some { trace := [] ++ idleWaitEvents 2, busy := [false] } :=
  ⟨rfl, (WaitUntilIdle_polls { trace := [], busy := [false, false, true, false] } 2 [false]
    rfl).1⟩

/-! ## C19: the parameter bytes of `Configure` -/

/-- C19. For every `Config`, when the busy line reads low `n` times and then
high, `Configure` returns and what it emitted is, in order: the reset pulse,
the command `0x04`, the idle wait, the command `PANEL_SETTING` with the data
bytes `0x0f`, `0x89`, the command `RESOLUTION_SETTING` with the data bytes
`0x80`, `0x01`, `0x28`, and the command `VCOM_AND_DATA_INTERVAL_SETTING` with
the data byte `0x77`. The hardware side of `Configure` is the same for any two
configurations and earlier device memories. -/
theorem Configure_sends_fixed_bytes (k : Registers) (cfg : Config) (d0 : Device) (hw : Hw)
    (n : Nat) (rest : List Bool) (hb : hw.busy = List.replicate n false ++ true :: rest) :
    (∃ d, Configure k cfg d0 hw
      = some (d,
          { trace := hw.trace ++ resetEvents ++ commandEvents 0x04 ++ idleWaitEvents n ++
              (commandEvents k.PANEL_SETTING ++ dataEvents 0x0f ++ dataEvents 0x89 ++
               commandEvents k.RESOLUTION_SETTING ++ dataEvents 0x80 ++ dataEvents 0x01 ++
               dataEvents 0x28 ++
               commandEvents k.VCOM_AND_DATA_INTERVAL_SETTING ++ dataEvents 0x77),
            busy := rest })) ∧
    (∀ (cfg' : Config) (d0' : Device),
      (Configure k cfg' d0' hw).map (fun r => r.2) = (Configure k cfg d0 hw).map (fun r => r.2)) :=
  ⟨⟨_, Configure_of_busy k cfg d0 hw n rest hb⟩,
    fun cfg' d0' => by
      rw [Configure_of_busy k cfg' d0' hw n rest hb, Configure_of_busy k cfg d0 hw n rest hb]
      rfl⟩

/-- C19 witness: the hardware side of `Configure` for a 200 x 100 configuration
equals that for the defaults. -/
theorem Configure_sends_fixed_bytes_witness :
    ({ trace := [], busy := [true] } : Hw).busy = List.replicate 0 false ++ true :: [] ∧
    (Configure sampleRegisters { Width := 200, Height := 100, LogicalWidth := 200, Rotation := 1 }
        newDevice { trace := [], busy := [true] }).map (fun r => r.2)
      = (Configure sampleRegisters defaultConfig newDevice
          { trace := [], busy := [true] }).map (fun r => r.2) :=
  ⟨rfl, (Configure_sends_fixed_bytes sampleRegisters defaultConfig newDevice
    { trace := [], busy := [true] } 0 [] rfl).2 _ _⟩

/-! ## Pixel writes on arbitrary buffers -/

theorem updByte_eq_some {d d' : Device} {i : Nat} {j : Int} {f : Nat → Nat}
    (h : updByte d i j f = some d') :
    ∃ p b, d.buffer[i]? = some p ∧ 0 ≤ j ∧ p[j.toNat]? = some b ∧
      d' = { d with buffer := d.buffer.set i (p.set j.toNat (f b)) } := by
  unfold updByte at h
  cases hp : d.buffer[i]? with
  | none => rw [hp] at h; exact Option.noConfusion h
  | some p =>
    rw [hp] at h
    simp only [] at h
    by_cases hj : 0 ≤ j
    · rw [if_pos hj] at h
      cases hb : p[j.toNat]? with
      | none => rw [hb] at h; exact Option.noConfusion h
      | some b =>
        rw [hb] at h
        exact ⟨p, b, rfl, hj, hb, (Option.some.inj h).symm⟩
    · rw [if_neg hj] at h
      exact Option.noConfusion h

theorem updByte_of_bytes {d : Device} {i : Nat} {j : Int} {p : List Nat} {b : Nat}
    (f : Nat → Nat) (hp : d.buffer[i]? = some p) (hj : 0 ≤ j) (hb : p[j.toNat]? = some b) :
    updByte d i j f = some { d with buffer := d.buffer.set i (p.set j.toNat (f b)) } := by
  unfold updByte
  simp [hp, hj, hb]

theorem lt_length_of_getElem? {α : Type} {l : List α} {i : Nat} {a : α} (h : l[i]? = some a) :
    i < l.length := by
  by_contra hge
  rw [List.getElem?_eq_none (by omega)] at h
  exact Option.noConfusion h

/-- The device after a completed write of `SetEPDPixel` at an in-range
coordinate, for the planes `p0`, `p1` and the addressed bytes `b0`, `b1`. -/
theorem SetEPDPixel_of_bytes (k : Registers) {d : Device} {x y : Int} (c : Nat)
    {p0 p1 : List Nat} {b0 b1 : Nat} (ho : ¬ outside d x y)
    (h0 : d.buffer[0]? = some p0) (h1 : d.buffer[1]? = some p1) (hj : 0 ≤ byteIndex d x y)
    (hb0 : p0[(byteIndex d x y).toNat]? = some b0)
    (hb1 : p1[(byteIndex d x y).toNat]? = some b1) :
    SetEPDPixel k d x y c
      = some { d with
          buffer :=
            (d.buffer.set 0 (p0.set (byteIndex d x y).toNat (planeOp0 k c (bitMask x) b0))).set 1
              (p1.set (byteIndex d x y).toNat (planeOp1 k c (bitMask x) b1)) } := by
  unfold outside at ho
  unfold SetEPDPixel
  rw [if_neg ho]
  simp only [BLACK, COLORED, Nat.sub_self, Nat.add_one_sub_one]
  have hl0 := lt_length_of_getElem? h0
  have hl1 := lt_length_of_getElem? h1
  by_cases hw : c = k.WHITE
  · rw [if_pos hw, updByte_of_bytes _ h0 hj hb0, Option.some_bind]
    have h1' : ({ d with buffer := d.buffer.set 0 (p0.set (byteIndex d x y).toNat
        (setBits (bitMask x) b0)) } : Device).buffer[1]? = some p1 := by
      show (d.buffer.set 0 _)[1]? = some p1
      rw [List.getElem?_set_ne (by decide), h1]
    rw [updByte_of_bytes _ h1' hj hb1]
    simp [planeOp0, planeOp1, hw]
  · by_cases hc : c = 2
    · rw [if_neg hw, if_pos hc, updByte_of_bytes _ h0 hj hb0, Option.some_bind]
      have h1' : ({ d with buffer := d.buffer.set 0 (p0.set (byteIndex d x y).toNat
          (setBits (bitMask x) b0)) } : Device).buffer[1]? = some p1 := by
        show (d.buffer.set 0 _)[1]? = some p1
        rw [List.getElem?_set_ne (by decide), h1]
      rw [updByte_of_bytes _ h1' hj hb1]
      subst hc
      simp [planeOp0, planeOp1, hw, COLORED]
    · rw [if_neg hw, if_neg hc, updByte_of_bytes _ h1 hj hb1, Option.some_bind]
      have h0' : ({ d with buffer := d.buffer.set 1 (p1.set (byteIndex d x y).toNat
          (setBits (bitMask x) b1)) } : Device).buffer[0]? = some p0 := by
        show (d.buffer.set 1 _)[0]? = some p0
        rw [List.getElem?_set_ne (by decide), h0]
      rw [updByte_of_bytes _ h0' hj hb0]
      simp only [planeOp0, planeOp1, if_neg hw, COLORED, if_neg hc]
      congr 2
      exact List.set_comm _ _ _ (by decide)

theorem two_updates_bytes {d d' : Device} {i i' : Nat} (hne : i ≠ i') {j : Int}
    {f g : Nat → Nat} (h : (updByte d i j f).bind (fun d1 => updByte d1 i' j g) = some d') :
    ∃ p p' b b', d.buffer[i]? = some p ∧ d.buffer[i']? = some p' ∧ 0 ≤ j ∧
      p[j.toNat]? = some b ∧ p'[j.toNat]? = some b' := by
  obtain ⟨d1, hd1, hd2⟩ := Option.bind_eq_some.mp h
  obtain ⟨pa, ba, ha, hj, hba, hda⟩ := updByte_eq_some hd1
  obtain ⟨pb, bb, hb, _, hbb, _⟩ := updByte_eq_some hd2
  subst hda
  have hb' : d.buffer[i']? = some pb := by
    rw [← hb]
    exact (List.getElem?_set_ne hne).symm
  exact ⟨pa, pb, ba, bb, ha, hb', hj, hba, hbb⟩

/-- A completed `SetEPDPixel` at an in-range coordinate has found the addressed
byte in plane 0 and in plane 1. -/
theorem SetEPDPixel_bytes_of_some {k : Registers} {d d' : Device} {x y : Int} {c : Nat}
    (ho : ¬ outside d x y) (h : SetEPDPixel k d x y c = some d') :
    ∃ p0 p1 b0 b1, d.buffer[0]? = some p0 ∧ d.buffer[1]? = some p1 ∧ 0 ≤ byteIndex d x y ∧
      p0[(byteIndex d x y).toNat]? = some b0 ∧ p1[(byteIndex d x y).toNat]? = some b1 := by
  unfold outside at ho
  unfold SetEPDPixel at h
  rw [if_neg ho] at h
  simp only [BLACK, COLORED, Nat.sub_self, Nat.add_one_sub_one] at h
  split_ifs at h
  · exact two_updates_bytes (by decide) h
  · exact two_updates_bytes (by decide) h
  · obtain ⟨p1, p0, b1, b0, h1, h0, hj, hb1, hb0⟩ := two_updates_bytes (by decide) h
    exact ⟨p0, p1, b0, b1, h0, h1, hj, hb0, hb1⟩

theorem getD_written (buf : List (List Nat)) (P0 P1 : List Nat) (i : Nat)
    (h1 : 1 < buf.length) :
    ((buf.set 0 P0).set 1 P1).getD i []
      = if i = 0 then P0 else if i = 1 then P1 else buf.getD i [] := by
  rw [List.getD_eq_getElem?_getD, List.getD_eq_getElem?_getD, List.getElem?_set,
    List.getElem?_set]
  by_cases hi0 : i = 0
  · subst hi0
    simp [Nat.lt_of_succ_lt h1]
  · by_cases hi1 : i = 1
    · subst hi1
      simp [h1]
    · have e0 : ¬ 0 = i := fun h => hi0 h.symm
      have e1 : ¬ 1 = i := fun h => hi1 h.symm
      simp [hi0, hi1, e0, e1]

theorem planeOps_other_bits (k : Registers) (c t b s : Nat) (hb : b < 256) (hs : s ≠ t) :
    (planeOp0 k c (2 ^ t) b).testBit s = b.testBit s ∧
    (planeOp1 k c (2 ^ t) b).testBit s = b.testBit s := by
  have hts : ¬ t = s := fun h => hs h.symm
  have hset : (setBits (2 ^ t) b).testBit s = b.testBit s := by
    rw [testBit_setBits, Nat.testBit_two_pow]
    simp [hts]
  have hclr : (clearBits (2 ^ t) b).testBit s = b.testBit s := by
    rw [testBit_clearBits, Nat.testBit_two_pow]
    by_cases h8 : s < 8
    · simp [hts, h8]
    · simp [hts, h8, testBit_of_lt_256 hb h8]
  unfold planeOp0 planeOp1
  split_ifs <;> exact ⟨by assumption, by assumption⟩

theorem bytesTyped_getElem? {d : Device} (hty : d.bytesTyped) {i j : Nat} {p : List Nat}
    {b : Nat} (hp : d.buffer[i]? = some p) (hb : p[j]? = some b) : b < 256 :=
  hty p (List.getElem?_mem hp) b (List.getElem?_mem hb)

theorem getD_of_getElem? {α : Type} {l : List α} {i : Nat} {a a0 : α} (h : l[i]? = some a) :
    l.getD i a0 = a := by
  rw [List.getD_eq_getElem?_getD, h]
  rfl

/-- The frame of a completed in-range `SetEPDPixel`. -/
theorem SetEPDPixel_frame {k : Registers} {d d' : Device} {x y : Int} {c : Nat}
    (hty : d.bytesTyped) (ho : ¬ outside d x y) (h : SetEPDPixel k d x y c = some d') :
    SingleBitFrame d d' (byteIndex d x y).toNat (7 - (x % 8).toNat) := by
  obtain ⟨p0, p1, b0, b1, h0, h1, hj, hb0, hb1⟩ := SetEPDPixel_bytes_of_some ho h
  rw [SetEPDPixel_of_bytes k c ho h0 h1 hj hb0 hb1] at h
  have hd := (Option.some.inj h).symm
  subst hd
  have hx : 0 ≤ x := by
    unfold outside at ho
    simp only [not_or, not_lt] at ho
    exact ho.1
  have hl1 : 1 < d.buffer.length := lt_length_of_getElem? h1
  have hn0 : (byteIndex d x y).toNat < p0.length := lt_length_of_getElem? hb0
  have hn1 : (byteIndex d x y).toNat < p1.length := lt_length_of_getElem? hb1
  have hplane0 : plane d 0 = p0 := getD_of_getElem? h0
  have hplane1 : plane d 1 = p1 := getD_of_getElem? h1
  refine ⟨rfl, rfl, rfl, rfl, rfl, by simp, ?_, ?_⟩
  · intro i
    unfold plane
    simp only []
    rw [getD_written _ _ _ i hl1]
    by_cases hi0 : i = 0
    · subst hi0
      rw [if_pos rfl, List.length_set]
      exact congrArg List.length hplane0.symm
    · by_cases hi1 : i = 1
      · subst hi1
        rw [if_neg hi0, if_pos rfl, List.length_set]
        exact congrArg List.length hplane1.symm
      · rw [if_neg hi0, if_neg hi1]
  · intro i j s hne
    unfold byteAt
    have hpl : plane ({ d with
        buffer :=
          (d.buffer.set 0 (p0.set (byteIndex d x y).toNat (planeOp0 k c (bitMask x) b0))).set 1
            (p1.set (byteIndex d x y).toNat (planeOp1 k c (bitMask x) b1)) } : Device) i
        = if i = 0 then p0.set (byteIndex d x y).toNat (planeOp0 k c (bitMask x) b0)
          else if i = 1 then p1.set (byteIndex d x y).toNat (planeOp1 k c (bitMask x) b1)
          else plane d i := getD_written _ _ _ i hl1
    rw [hpl]
    by_cases hi0 : i = 0
    · subst hi0
      rw [if_pos rfl, hplane0, getD_set _ _ _ _ hn0]
      by_cases hjn : j = (byteIndex d x y).toNat
      · rw [if_pos hjn, hjn, getD_of_getElem? hb0, bitMask_eq_two_pow hx]
        have hs : s ≠ 7 - (x % 8).toNat := fun e => hne ⟨by decide, hjn, e⟩
        exact (planeOps_other_bits k c _ b0 s (bytesTyped_getElem? hty h0 hb0) hs).1
      · rw [if_neg hjn]
    · by_cases hi1 : i = 1
      · subst hi1
        rw [if_neg hi0, if_pos rfl, hplane1, getD_set _ _ _ _ hn1]
        by_cases hjn : j = (byteIndex d x y).toNat
        · rw [if_pos hjn, hjn, getD_of_getElem? hb1, bitMask_eq_two_pow hx]
          have hs : s ≠ 7 - (x % 8).toNat := fun e => hne ⟨by decide, hjn, e⟩
          exact (planeOps_other_bits k c _ b1 s (bytesTyped_getElem? hty h1 hb1) hs).2
        · rw [if_neg hjn]
      · rw [if_neg hi0, if_neg hi1]

theorem SingleBitFrame_refl (d : Device) (n t : Nat) : SingleBitFrame d d n t :=
  ⟨rfl, rfl, rfl, rfl, rfl, rfl, fun _ => rfl, fun _ _ _ _ => rfl⟩

theorem bitMask_eq_shift {x : Int} (hx : 0 ≤ x) : bitMask x = 0x80 >>> (x % 8).toNat := by
  have h1 : 0 ≤ x % 8 := Int.emod_nonneg x (by decide)
  have h2 : x % 8 < 8 := Int.emod_lt_of_pos x (by decide)
  rw [bitMask_eq_two_pow hx]
  have hs : (x % 8).toNat < 8 := by omega
  generalize (x % 8).toNat = s at hs ⊢
  interval_cases s <;> rfl

/-! ## C14: a pixel write changes one bit per plane -/

/-- C14. For every device state whose buffer bytes are `uint8` values, every
coordinate and every colour: when `SetEPDPixel(x, y, c)` completes, the device
after it has the `width`, `height`, `logicalWidth`, `rotation`,
`bufferLength`, number of planes and plane lengths of the device before it,
and every bit of every plane other than bit `7 - (x mod 8)`, the bit of the
mask `0x80 >> (x mod 8)`, of byte `(x + y*width)/8` of plane 0 and of plane 1
is unchanged; when `SetPixel(x, y, c)` completes, the same holds with the
rotation-transformed coordinate `xy d x y` in place of `(x, y)`. -/
theorem pixel_write_single_bit_frame (k : Registers) (d : Device) (x y : Int)
    (hty : d.bytesTyped) :
    (∀ (c : Nat) (d' : Device), SetEPDPixel k d x y c = some d' →
      SingleBitFrame d d' (byteIndex d x y).toNat (7 - (x % 8).toNat) ∧
      (¬ outside d x y →
        bitMask x = 0x80 >>> (x % 8).toNat ∧ bitMask x = 2 ^ (7 - (x % 8).toNat))) ∧
    (∀ (c : RGBA) (d' : Device), SetPixel k d x y c = some d' →
      SingleBitFrame d d' (byteIndex d (xy d x y).1 (xy d x y).2).toNat
        (7 - ((xy d x y).1 % 8).toNat)) := by
  constructor
  · intro c d' h
    constructor
    · by_cases ho : outside d x y
      · rw [SetEPDPixel_outside k d x y c ho] at h
        have hd := (Option.some.inj h).symm
        subst hd
        exact SingleBitFrame_refl _ _ _
      · exact SetEPDPixel_frame hty ho h
    · intro ho
      have hx : 0 ≤ x := by
        unfold outside at ho
        simp only [not_or, not_lt] at ho
        exact ho.1
      exact ⟨bitMask_eq_shift hx, bitMask_eq_two_pow hx⟩
  · intro c d' h
    rcases SetPixel_cases h with he | he
    · subst he
      exact SingleBitFrame_refl _ _ _
    · by_cases ho : outside d (xy d x y).1 (xy d x y).2
      · rw [SetEPDPixel_outside k d _ _ _ ho] at he
        have hd := (Option.some.inj he).symm
        subst hd
        exact SingleBitFrame_refl _ _ _
      · exact SetEPDPixel_frame hty ho he

/-- C14 witness: `SetEPDPixel(3, 1, 9)` on the freshly configured small device
gives `smallDrawn`, which differs from it in bit 4 of byte 1 only. -/
theorem pixel_write_single_bit_frame_witness :
    (configuredMemory smallConfig).bytesTyped ∧
    SetEPDPixel sampleRegisters (configuredMemory smallConfig) 3 1 9 = some smallDrawn ∧
    SingleBitFrame (configuredMemory smallConfig) smallDrawn 1 4 :=
  ⟨by decide, by decide,
    ((pixel_write_single_bit_frame sampleRegisters (configuredMemory smallConfig) 3 1
      (by decide)).1 9 smallDrawn (by decide)).1⟩

/-! ## C17: the last write wins -/

theorem planeOps_absorb (k : Registers) (c1 c2 m b : Nat) (hb : b < 256) (hm : m < 256) :
    planeOp0 k c2 m (planeOp0 k c1 m b) = planeOp0 k c2 m b ∧
    planeOp1 k c2 m (planeOp1 k c1 m b) = planeOp1 k c2 m b := by
  have hss : setBits m (setBits m b) = setBits m b := by
    apply Nat.eq_of_testBit_eq
    intro s
    simp only [testBit_setBits]
    cases b.testBit s <;> cases m.testBit s <;> rfl
  have hsc : setBits m (clearBits m b) = setBits m b := by
    apply Nat.eq_of_testBit_eq
    intro s
    simp only [testBit_setBits, testBit_clearBits]
    by_cases h8 : s < 8
    · simp only [h8, decide_True]
      cases b.testBit s <;> cases m.testBit s <;> rfl
    · simp [h8, testBit_of_lt_256 hb h8, testBit_of_lt_256 hm h8]
  have hcs : clearBits m (setBits m b) = clearBits m b := by
    apply Nat.eq_of_testBit_eq
    intro s
    simp only [testBit_setBits, testBit_clearBits]
    by_cases h8 : s < 8
    · simp only [h8, decide_True]
      cases b.testBit s <;> cases m.testBit s <;> rfl
    · simp [h8, testBit_of_lt_256 hb h8, testBit_of_lt_256 hm h8]
  have hcc : clearBits m (clearBits m b) = clearBits m b := by
    apply Nat.eq_of_testBit_eq
    intro s
    simp only [testBit_clearBits]
    cases b.testBit s <;> cases (decide (s < 8) ^^ m.testBit s) <;> rfl
  unfold planeOp0 planeOp1
  constructor <;> split_ifs <;> assumption

/-- A completed in-range `SetEPDPixel` followed by a second one at the same
coordinate gives what the second one alone gives. -/
theorem SetEPDPixel_twice {k : Registers} {d d1 : Device} {x y : Int} (c1 c2 : Nat)
    (hty : d.bytesTyped) (ho : ¬ outside d x y) (h : SetEPDPixel k d x y c1 = some d1) :
    SetEPDPixel k d1 x y c2 = SetEPDPixel k d x y c2 ∧
    ∃ d2, SetEPDPixel k d x y c2 = some d2 := by
  obtain ⟨p0, p1, b0, b1, h0, h1, hj, hb0, hb1⟩ := SetEPDPixel_bytes_of_some ho h
  rw [SetEPDPixel_of_bytes k c1 ho h0 h1 hj hb0 hb1] at h
  have hd := (Option.some.inj h).symm
  subst hd
  have hl0 : 0 < d.buffer.length := lt_length_of_getElem? h0
  have hl1 : 1 < d.buffer.length := lt_length_of_getElem? h1
  have hn0 : (byteIndex d x y).toNat < p0.length := lt_length_of_getElem? hb0
  have hn1 : (byteIndex d x y).toNat < p1.length := lt_length_of_getElem? hb1
  refine ⟨?_, _, SetEPDPixel_of_bytes k c2 ho h0 h1 hj hb0 hb1⟩
  rw [SetEPDPixel_of_bytes k c2 ho h0 h1 hj hb0 hb1]
  have g0 : ({ d with
      buffer :=
        (d.buffer.set 0 (p0.set (byteIndex d x y).toNat (planeOp0 k c1 (bitMask x) b0))).set 1
          (p1.set (byteIndex d x y).toNat (planeOp1 k c1 (bitMask x) b1)) } : Device).buffer[0]?
      = some (p0.set (byteIndex d x y).toNat (planeOp0 k c1 (bitMask x) b0)) := by
    show ((d.buffer.set 0 _).set 1 _)[0]? = _
    rw [List.getElem?_set_ne (by decide), List.getElem?_set_self hl0]
  have g1 : ({ d with
      buffer :=
        (d.buffer.set 0 (p0.set (byteIndex d x y).toNat (planeOp0 k c1 (bitMask x) b0))).set 1
          (p1.set (byteIndex d x y).toNat (planeOp1 k c1 (bitMask x) b1)) } : Device).buffer[1]?
      = some (p1.set (byteIndex d x y).toNat (planeOp1 k c1 (bitMask x) b1)) := by
    show ((d.buffer.set 0 _).set 1 _)[1]? = _
    rw [List.getElem?_set_self (by simpa using hl1)]
  have ho' : ¬ outside ({ d with
      buffer :=
        (d.buffer.set 0 (p0.set (byteIndex d x y).toNat (planeOp0 k c1 (bitMask x) b0))).set 1
          (p1.set (byteIndex d x y).toNat (planeOp1 k c1 (bitMask x) b1)) } : Device) x y := ho
  rw [SetEPDPixel_of_bytes k c2 ho' g0 g1 hj (List.getElem?_set_self hn0)
    (List.getElem?_set_self hn1)]
  have a0 := (planeOps_absorb k c1 c2 (bitMask x) b0 (bytesTyped_getElem? hty h0 hb0)
    (bitMask_lt x)).1
  have a1 := (planeOps_absorb k c1 c2 (bitMask x) b1 (bytesTyped_getElem? hty h1 hb1)
    (bitMask_lt x)).2
  have e : byteIndex ({ d with
      buffer :=
        (d.buffer.set 0 (p0.set (byteIndex d x y).toNat (planeOp0 k c1 (bitMask x) b0))).set 1
          (p1.set (byteIndex d x y).toNat (planeOp1 k c1 (bitMask x) b1)) } : Device) x y
      = byteIndex d x y := rfl
  simp only [e, a0, a1, List.set_set]
  congr 2
  rw [List.set_comm _ _ _ (by decide : (1 : Nat) ≠ 0), List.set_set, List.set_set]

/-- C17. For every device state whose buffer bytes are `uint8` values, every
coordinate and all colours `c1`, `c2`: when `SetPixel(x, y, c1)` completes, a
following `SetPixel(x, y, c2)` (the rotation being unchanged by `SetPixel`)
completes as well and leaves the device in exactly the state that
`SetPixel(x, y, c2)` alone produces from the original state; in particular a
second `SetPixel(x, y, c1)` changes nothing. -/
theorem SetPixel_last_write_wins (k : Registers) (d d1 : Device) (x y : Int) (c1 c2 : RGBA)
    (hty : d.bytesTyped) (h1 : SetPixel k d x y c1 = some d1) :
    SetPixel k d1 x y c2 = SetPixel k d x y c2 ∧
    (∃ d2, SetPixel k d x y c2 = some d2) ∧
    SetPixel k d1 x y c1 = some d1 ∧
    d1.rotation = d.rotation := by
  have key : ∀ c : RGBA, SetPixel k d1 x y c = SetPixel k d x y c ∧
      (∃ d2, SetPixel k d x y c = some d2) ∧ d1.rotation = d.rotation := by
    intro c
    rw [SetPixel_eq_classify] at h1
    by_cases hg : outside d (xy d x y).1 (xy d x y).2 ∨ (xy d x y).1 ≥ d.logicalWidth
    · rw [if_pos hg] at h1
      have hd := (Option.some.inj h1).symm
      subst hd
      refine ⟨rfl, ⟨d1, ?_⟩, rfl⟩
      rw [SetPixel_eq_classify, if_pos hg]
    · rw [if_neg hg] at h1
      have ho : ¬ outside d (xy d x y).1 (xy d x y).2 := fun h => hg (Or.inl h)
      obtain ⟨htw, d2, hd2⟩ := SetEPDPixel_twice (classify k c1) (classify k c) hty ho h1
      obtain ⟨p0, p1, b0, b1, h0, h1', hj, hb0, hb1⟩ := SetEPDPixel_bytes_of_some ho h1
      rw [SetEPDPixel_of_bytes k _ ho h0 h1' hj hb0 hb1] at h1
      have hd := (Option.some.inj h1).symm
      have hxy : xy d1 x y = xy d x y := by rw [hd]; rfl
      have hlw : d1.logicalWidth = d.logicalWidth := by rw [hd]
      have hout : outside d1 (xy d x y).1 (xy d x y).2 ↔ outside d (xy d x y).1 (xy d x y).2 := by
        rw [hd]; rfl
      have hg1 : ¬ (outside d1 (xy d x y).1 (xy d x y).2 ∨ (xy d x y).1 ≥ d1.logicalWidth) := by
        rw [hout, hlw]; exact hg
      refine ⟨?_, ⟨d2, ?_⟩, by rw [hd]⟩
      · rw [SetPixel_eq_classify k d1, SetPixel_eq_classify k d, hxy, if_neg hg1, if_neg hg, htw]
      · rw [SetPixel_eq_classify k d, if_neg hg, hd2]
  refine ⟨(key c2).1, (key c2).2.1, ?_, (key c2).2.2⟩
  rw [(key c1).1, h1]

/-- C17 witness: on the freshly configured small device, a colored pixel
followed by a black one at (3, 1) gives what the black one alone gives. -/
theorem SetPixel_last_write_wins_witness :
    ((configuredMemory smallConfig).bytesTyped ∧
      SetPixel sampleRegisters (configuredMemory smallConfig) 3 1
        { R := 9, G := 0, B := 0, A := 255 }
        = some { configuredMemory smallConfig with buffer := [[0xFF, 0xFF], [0xFF, 0xEF]] }) ∧
    SetPixel sampleRegisters
        { configuredMemory smallConfig with buffer := [[0xFF, 0xFF], [0xFF, 0xEF]] } 3 1
        { R := 0, G := 7, B := 0, A := 255 }
      = SetPixel sampleRegisters (configuredMemory smallConfig) 3 1
        { R := 0, G := 7, B := 0, A := 255 } :=
  ⟨⟨by decide, by decide⟩,
    (SetPixel_last_write_wins sampleRegisters (configuredMemory smallConfig)
      { configuredMemory smallConfig with buffer := [[0xFF, 0xFF], [0xFF, 0xEF]] } 3 1
      { R := 9, G := 0, B := 0, A := 255 } { R := 0, G := 7, B := 0, A := 255 }
      (by decide) (by decide)).1⟩

/-! ## C15: addressing without wrap-around -/

theorem Configured_static {k : Registers} {d : Device} (h : Configured k d) :
    ∃ cfg : Config, cfg.wellTyped ∧ d.width = resolvedWidth cfg ∧
      d.height = resolvedHeight cfg ∧ d.logicalWidth = resolvedLogicalWidth cfg := by
  induction h with
  | configure cfg d0 d hw hw' hty hc =>
    have hd := Configure_memory hc
    subst hd
    exact ⟨cfg, hty, rfl, rfl, rfl⟩
  | setPixel d d' x y c hd _ _ _ hs ih =>
    obtain ⟨p0, p1, hb, h0, h1⟩ := (Configured_inv hd).1
    rcases SetPixel_cases hs with he | he
    · subst he; exact ih
    · rcases SetEPDPixel_cases hb (h0.trans h1.symm) he with he' | ⟨_, _, _, he'⟩
      · subst he'; exact ih
      · subst he'; exact ih
  | setEPDPixel d d' x y c hd _ _ _ hs ih =>
    obtain ⟨p0, p1, hb, h0, h1⟩ := (Configured_inv hd).1
    rcases SetEPDPixel_cases hb (h0.trans h1.symm) hs with he' | ⟨_, _, _, he'⟩
    · subst he'; exact ih
    · subst he'; exact ih
  | setRotation d r _ _ ih => exact ih
  | clearBuffer d d' hd hs ih =>
    rw [ClearBuffer_eq (Configured_inv hd).1] at hs
    have hd' := (Option.some.inj hs).symm
    subst hd'
    exact ih

theorem Configured_int16 {k : Registers} {d : Device} (h : Configured k d) :
    isInt16 d.width ∧ isInt16 d.height ∧ isInt16 d.logicalWidth := by
  obtain ⟨cfg, ⟨h1, h2, h3, _⟩, hw, hh, hl⟩ := Configured_static h
  rw [hw, hh, hl]
  unfold resolvedWidth resolvedHeight resolvedLogicalWidth
  unfold isInt16 at *
  refine ⟨?_, ?_, ?_⟩ <;> split_ifs <;> omega

theorem byteIndex_no_wrap {d : Device} {x y : Int} (hx : 0 ≤ x) (hy : 0 ≤ y)
    (hw : 0 ≤ d.width) (hs : x + y * d.width ≤ 32767) :
    byteIndex d x y = (x + y * d.width) / 8 := by
  have hp : 0 ≤ y * d.width := mul_nonneg hy hw
  have e1 : wrap16 (y * d.width) = y * d.width :=
    wrap16_of_isInt16 (by unfold isInt16; omega)
  have e2 : wrap16 (x + y * d.width) = x + y * d.width :=
    wrap16_of_isInt16 (by unfold isInt16; omega)
  unfold byteIndex
  rw [e1, e2, Int.tdiv_eq_ediv (by omega) (by decide)]

theorem bitMask_inj {x x' : Int} (hx : 0 ≤ x) (hx' : 0 ≤ x') (h : bitMask x = bitMask x') :
    x % 8 = x' % 8 := by
  rw [bitMask_eq_two_pow hx, bitMask_eq_two_pow hx'] at h
  have e := Nat.pow_right_injective (le_refl 2) h
  have h1 : 0 ≤ x % 8 := Int.emod_nonneg x (by decide)
  have h2 : x % 8 < 8 := Int.emod_lt_of_pos x (by decide)
  have h3 : 0 ≤ x' % 8 := Int.emod_nonneg x' (by decide)
  have h4 : x' % 8 < 8 := Int.emod_lt_of_pos x' (by decide)
  omega

/-- C15. On every configured device whose width is a positive multiple of 8
and whose logical width is at least the width, for every in-range coordinate
with `x + y*width <= 32767`: the `int16` byte index computed by `SetEPDPixel`
is `(x + y*width)/8` and satisfies `0 <= byteIndex < bufferLength`, and two
such coordinates with the same byte index and the same bit mask are equal. -/
theorem byteIndex_in_bounds_and_injective (k : Registers) (d : Device) (x y : Int)
    (hd : Configured k d) (hw : 0 < d.width ∧ d.width % 8 = 0)
    (hlw : d.width ≤ d.logicalWidth)
    (hx : 0 ≤ x ∧ x < d.width) (hy : 0 ≤ y ∧ y < d.height)
    (hs : x + y * d.width ≤ 32767) :
    byteIndex d x y = (x + y * d.width) / 8 ∧
    0 ≤ byteIndex d x y ∧ byteIndex d x y < d.bufferLength ∧
    (∀ x' y' : Int, 0 ≤ x' ∧ x' < d.width → 0 ≤ y' ∧ y' < d.height →
      x' + y' * d.width ≤ 32767 →
      byteIndex d x y = byteIndex d x' y' → bitMask x = bitMask x' → x = x' ∧ y = y') := by
  obtain ⟨_, hih, hil⟩ := Configured_int16 hd
  unfold isInt16 at hih hil
  have hidx := byteIndex_no_wrap hx.1 hy.1 (le_of_lt hw.1) hs
  have hP : 0 ≤ y * d.width := mul_nonneg hy.1 (le_of_lt hw.1)
  have hP8 : (y * d.width) % 8 = 0 := by
    obtain ⟨m, hm⟩ := Int.dvd_of_emod_eq_zero hw.2
    rw [hm, ← mul_assoc, mul_comm y 8, mul_assoc]
    exact Int.mul_emod_right 8 (y * m)
  refine ⟨hidx, ?_, ?_, ?_⟩
  · rw [hidx]; omega
  · rw [hidx, Configured_bufferLength hd]
    have hh0 : 0 < d.height := by omega
    have hl0 : 0 < d.logicalWidth := by omega
    have e1 := toUint32_of_pos hl0 hil.2
    have e2 := toUint32_of_pos hh0 hih.2
    have hprod : toUint32 d.logicalWidth * toUint32 d.height < 4294967296 := by
      have a1 : toUint32 d.logicalWidth ≤ 32767 := by omega
      have a2 : toUint32 d.height ≤ 32767 := by omega
      calc toUint32 d.logicalWidth * toUint32 d.height
          ≤ 32767 * 32767 := Nat.mul_le_mul a1 a2
        _ < 4294967296 := by decide
    rw [Nat.mod_eq_of_lt hprod]
    push_cast
    rw [e1, e2]
    have hQ : y * d.width + d.width ≤ d.height * d.width := by nlinarith [hy.2, hw.1]
    have hR : d.height * d.width ≤ d.logicalWidth * d.height := by nlinarith [hh0, hlw]
    have hQ8 : (d.height * d.width) % 8 = 0 := by
      obtain ⟨m, hm⟩ := Int.dvd_of_emod_eq_zero hw.2
      rw [hm, ← mul_assoc, mul_comm d.height 8, mul_assoc]
      exact Int.mul_emod_right 8 (d.height * m)
    omega
  · intro x' y' hx' hy' hs' hbi hbm
    have hidx' := byteIndex_no_wrap hx'.1 hy'.1 (le_of_lt hw.1) hs'
    have hP' : 0 ≤ y' * d.width := mul_nonneg hy'.1 (le_of_lt hw.1)
    have hP8' : (y' * d.width) % 8 = 0 := by
      obtain ⟨m, hm⟩ := Int.dvd_of_emod_eq_zero hw.2
      rw [hm, ← mul_assoc, mul_comm y' 8, mul_assoc]
      exact Int.mul_emod_right 8 (y' * m)
    rw [hidx, hidx'] at hbi
    have hm8 := bitMask_inj hx.1 hx'.1 hbm
    have hsum : x + y * d.width = x' + y' * d.width := by omega
    have ex : (x + y * d.width) % d.width = x := by
      rw [Int.add_mul_emod_self, Int.emod_eq_of_lt hx.1 hx.2]
    have ex' : (x' + y' * d.width) % d.width = x' := by
      rw [Int.add_mul_emod_self, Int.emod_eq_of_lt hx'.1 hx'.2]
    have hxx : x = x' := by rw [← ex, ← ex', hsum]
    refine ⟨hxx, ?_⟩
    have hyw : y * d.width = y' * d.width := by omega
    exact mul_right_cancel₀ (ne_of_gt hw.1) hyw

/-- C15 witness: the coordinate (3, 1) on the freshly configured small
device. -/
theorem byteIndex_in_bounds_and_injective_witness :
    (Configured sampleRegisters (configuredMemory smallConfig) ∧
      (0 < (configuredMemory smallConfig).width ∧ (configuredMemory smallConfig).width % 8 = 0) ∧
      (configuredMemory smallConfig).width ≤ (configuredMemory smallConfig).logicalWidth ∧
      ((0 : Int) ≤ 3 ∧ 3 < (configuredMemory smallConfig).width) ∧
      ((0 : Int) ≤ 1 ∧ 1 < (configuredMemory smallConfig).height) ∧
      3 + 1 * (configuredMemory smallConfig).width ≤ 32767) ∧
    byteIndex (configuredMemory smallConfig) 3 1 < (configuredMemory smallConfig).bufferLength :=
  ⟨⟨smallConfig_Configured sampleRegisters, by decide, by decide, by decide, by decide,
      by decide⟩,
    (byteIndex_in_bounds_and_injective sampleRegisters (configuredMemory smallConfig) 3 1
      (smallConfig_Configured sampleRegisters) (by decide) (by decide) (by decide) (by decide)
      (by decide)).2.2.1⟩

/-! ## C16: `xy` between the logical and the visible extent -/

theorem xy_cases (d : Device) (x y : Int) :
    (d.rotation = Rotation90 ∧ xy d x y = (wrap16 (wrap16 (d.width - y) - 1), x)) ∨
    (d.rotation = Rotation180 ∧
      xy d x y = (wrap16 (wrap16 (d.width - x) - 1), wrap16 (wrap16 (d.height - y) - 1))) ∨
    (d.rotation = Rotation270 ∧ xy d x y = (y, wrap16 (wrap16 (d.height - x) - 1))) ∨
    (d.rotation ≠ Rotation90 ∧ d.rotation ≠ Rotation180 ∧ d.rotation ≠ Rotation270 ∧
      xy d x y = (x, y)) := by
  unfold xy
  by_cases h0 : d.rotation = NoRotation
  · right; right; right
    rw [if_pos h0]
    rw [h0]
    exact ⟨by decide, by decide, by decide, rfl⟩
  · by_cases h1 : d.rotation = Rotation90
    · left
      rw [if_neg h0, if_pos h1]
      exact ⟨h1, rfl⟩
    · by_cases h2 : d.rotation = Rotation180
      · right; left
        rw [if_neg h0, if_neg h1, if_pos h2]
        exact ⟨h2, rfl⟩
      · by_cases h3 : d.rotation = Rotation270
        · right; right; left
          rw [if_neg h0, if_neg h1, if_neg h2, if_pos h3]
          exact ⟨h3, rfl⟩
        · right; right; right
          rw [if_neg h0, if_neg h1, if_neg h2, if_neg h3]
          exact ⟨h1, h2, h3, rfl⟩

theorem xy_inside_iff (d : Device) (x y : Int) (hw : 0 < d.width ∧ d.width ≤ 32767)
    (hh : 0 < d.height ∧ d.height ≤ 32767) (hx : isInt16 x) (hy : isInt16 y) :
    inLogicalExtent d x y ↔ ¬ outside d (xy d x y).1 (xy d x y).2 := by
  unfold isInt16 at hx hy
  unfold inLogicalExtent outside
  rcases xy_cases d x y with ⟨hr, e⟩ | ⟨hr, e⟩ | ⟨hr, e⟩ | ⟨h1, _, h3, e⟩
  · rw [e, if_pos (Or.inl hr)]
    simp only [wrap16, not_or, not_lt, ge_iff_le]
    omega
  · have hn : ¬ (d.rotation = Rotation90 ∨ d.rotation = Rotation270) := by
      rw [hr]; decide
    rw [e, if_neg hn]
    simp only [wrap16, not_or, not_lt, ge_iff_le]
    omega
  · rw [e, if_pos (Or.inr hr)]
    simp only [wrap16, not_or, not_lt, ge_iff_le]
    omega
  · have hn : ¬ (d.rotation = Rotation90 ∨ d.rotation = Rotation270) := by
      intro h
      rcases h with h | h
      · exact h1 h
      · exact h3 h
    rw [e, if_neg hn]
    simp only [not_or, not_lt, ge_iff_le]
    omega

theorem xy_injective (d : Device) (x y x' y' : Int) (hx : isInt16 x) (hy : isInt16 y)
    (hx' : isInt16 x') (hy' : isInt16 y') (h : xy d x y = xy d x' y') : x = x' ∧ y = y' := by
  unfold isInt16 at hx hy hx' hy'
  rcases xy_cases d x y with ⟨hr, e⟩ | ⟨hr, e⟩ | ⟨hr, e⟩ | ⟨h1, h2, h3, e⟩ <;>
    rcases xy_cases d x' y' with ⟨hr', e'⟩ | ⟨hr', e'⟩ | ⟨hr', e'⟩ | ⟨h1', h2', h3', e'⟩
  all_goals first
    | (exfalso
       first
         | exact absurd (hr.symm.trans hr') (by decide)
         | exact h1 hr'
         | exact h2 hr'
         | exact h3 hr'
         | exact h1' hr
         | exact h2' hr
         | exact h3' hr)
    | (rw [e, e'] at h
       simp only [Prod.mk.injEq, wrap16] at h
       omega)

theorem xy_surjective (d : Device) (u v : Int) (hw : 0 < d.width ∧ d.width ≤ 32767)
    (hh : 0 < d.height ∧ d.height ≤ 32767) (huv : ¬ outside d u v) :
    ∃ x y, isInt16 x ∧ isInt16 y ∧ inLogicalExtent d x y ∧ xy d x y = (u, v) := by
  unfold outside at huv
  simp only [not_or, not_lt, ge_iff_le] at huv
  by_cases h1 : d.rotation = Rotation90
  · refine ⟨v, d.width - 1 - u, ?_, ?_, ?_, ?_⟩
    · unfold isInt16; omega
    · unfold isInt16; omega
    · unfold inLogicalExtent; rw [if_pos (Or.inl h1)]; omega
    · rcases xy_cases d v (d.width - 1 - u) with ⟨_, e⟩ | ⟨hr, _⟩ | ⟨hr, _⟩ | ⟨h, _⟩
      · rw [e]; simp only [Prod.mk.injEq, wrap16, and_true, true_and]; omega
      · exact absurd (h1.symm.trans hr) (by decide)
      · exact absurd (h1.symm.trans hr) (by decide)
      · exact absurd h1 h
  · by_cases h2 : d.rotation = Rotation180
    · refine ⟨d.width - 1 - u, d.height - 1 - v, ?_, ?_, ?_, ?_⟩
      · unfold isInt16; omega
      · unfold isInt16; omega
      · unfold inLogicalExtent
        rw [if_neg (by rw [h2]; decide)]; omega
      · rcases xy_cases d (d.width - 1 - u) (d.height - 1 - v) with
          ⟨hr, _⟩ | ⟨_, e⟩ | ⟨hr, _⟩ | ⟨_, h, _⟩
        · exact absurd hr h1
        · rw [e]; simp only [Prod.mk.injEq, wrap16, and_true, true_and]; omega
        · exact absurd (h2.symm.trans hr) (by decide)
        · exact absurd h2 h
    · by_cases h3 : d.rotation = Rotation270
      · refine ⟨d.height - 1 - v, u, ?_, ?_, ?_, ?_⟩
        · unfold isInt16; omega
        · unfold isInt16; omega
        · unfold inLogicalExtent; rw [if_pos (Or.inr h3)]; omega
        · rcases xy_cases d (d.height - 1 - v) u with ⟨hr, _⟩ | ⟨hr, _⟩ | ⟨_, e⟩ | ⟨_, _, h, _⟩
          · exact absurd hr h1
          · exact absurd hr h2
          · rw [e]; simp only [Prod.mk.injEq, wrap16, and_true, true_and]; omega
          · exact absurd h3 h
      · refine ⟨u, v, ?_, ?_, ?_, ?_⟩
        · unfold isInt16; omega
        · unfold isInt16; omega
        · unfold inLogicalExtent
          rw [if_neg (by intro h; rcases h with h | h; exact h1 h; exact h3 h)]; omega
        · rcases xy_cases d u v with ⟨hr, _⟩ | ⟨hr, _⟩ | ⟨hr, _⟩ | ⟨_, _, _, e⟩
          · exact absurd hr h1
          · exact absurd hr h2
          · exact absurd hr h3
          · exact e

/-- What holds of `xy` and of the guards of `SetPixel` for every rotation and
every positive `int16` width and height: `xy` maps an `int16` coordinate into
the visible extent exactly when the coordinate lies in the rotated logical
extent, is injective on `int16` coordinates, and reaches every coordinate of
the visible extent from the logical extent; `SetPixel` returns with the device
unchanged for every coordinate outside the rotated logical extent and, when
`logicalWidth >= width`, both its guards pass for every coordinate of the
rotated logical extent, so that the call is the write of `SetEPDPixel` at the
transformed coordinate. -/
theorem xy_maps_logical_extent_onto_visible (k : Registers) (d : Device)
    (hw : 0 < d.width ∧ d.width ≤ 32767) (hh : 0 < d.height ∧ d.height ≤ 32767) :
    (∀ x y : Int, isInt16 x → isInt16 y →
      (inLogicalExtent d x y ↔ ¬ outside d (xy d x y).1 (xy d x y).2)) ∧
    (∀ x y x' y' : Int, isInt16 x → isInt16 y → isInt16 x' → isInt16 y' →
      xy d x y = xy d x' y' → x = x' ∧ y = y') ∧
    (∀ u v : Int, ¬ outside d u v →
      ∃ x y, isInt16 x ∧ isInt16 y ∧ inLogicalExtent d x y ∧ xy d x y = (u, v)) ∧
    (∀ (x y : Int) (c : RGBA), isInt16 x → isInt16 y → ¬ inLogicalExtent d x y →
      SetPixel k d x y c = some d) ∧
    (d.width ≤ d.logicalWidth →
      ∀ (x y : Int) (c : RGBA), isInt16 x → isInt16 y → inLogicalExtent d x y →
        ¬ outside d (xy d x y).1 (xy d x y).2 ∧
        SetPixel k d x y c = SetEPDPixel k d (xy d x y).1 (xy d x y).2 (classify k c)) := by
  refine ⟨fun x y hx hy => xy_inside_iff d x y hw hh hx hy,
    fun x y x' y' hx hy hx' hy' h => xy_injective d x y x' y' hx hy hx' hy' h,
    fun u v huv => xy_surjective d u v hw hh huv, ?_, ?_⟩
  · intro x y c hx hy hout
    have ho : outside d (xy d x y).1 (xy d x y).2 := by
      by_contra hn
      exact hout ((xy_inside_iff d x y hw hh hx hy).mpr hn)
    rw [SetPixel_eq_classify, if_pos (Or.inl ho)]
  · intro hlw x y c hx hy hin
    have ho : ¬ outside d (xy d x y).1 (xy d x y).2 := (xy_inside_iff d x y hw hh hx hy).mp hin
    refine ⟨ho, ?_⟩
    rw [SetPixel_eq_classify, if_neg]
    intro h
    rcases h with h | h
    · exact ho h
    · unfold outside at ho
      simp only [not_or, not_lt, ge_iff_le] at ho
      omega

/-- The corner (127, 295) of the visible extent of the default device is
reached from the logical extent. -/
theorem xy_reaches_corner_of_default_device :
    ((0 < (configuredMemory defaultConfig).width ∧
        (configuredMemory defaultConfig).width ≤ 32767) ∧
      (0 < (configuredMemory defaultConfig).height ∧
        (configuredMemory defaultConfig).height ≤ 32767)) ∧
    ∃ x y, isInt16 x ∧ isInt16 y ∧ inLogicalExtent (configuredMemory defaultConfig) x y ∧
      xy (configuredMemory defaultConfig) x y = (127, 295) :=
  ⟨⟨by decide, by decide⟩,
    (xy_maps_logical_extent_onto_visible sampleRegisters (configuredMemory defaultConfig)
      (by decide) (by decide)).2.2.1 127 295 (by decide)⟩

/-- C16 (evaluation at the failing input). On the device configured with the
defaults (128 x 296, logical width 128, no rotation) the coordinate (0, 256)
lies in the logical extent, `xy` leaves it at (0, 256) inside the visible
extent, and `logicalWidth >= width`, so both guards of `SetPixel` pass; the
write then computes the `int16` byte index `-4096` and `SetPixel(0, 256,
RGBA(0,0,1,255))` does not complete: the coordinate of the logical extent is
neither written nor dropped. -/
theorem SetPixel_fails_inside_logical_extent :
    (Configure sampleRegisters defaultConfig newDevice { trace := [], busy := [true] }).map
        (fun r => r.1) = some (configuredMemory defaultConfig) ∧
    (configuredMemory defaultConfig).width ≤ (configuredMemory defaultConfig).logicalWidth ∧
    inLogicalExtent (configuredMemory defaultConfig) 0 256 ∧
    xy (configuredMemory defaultConfig) 0 256 = (0, 256) ∧
    ¬ outside (configuredMemory defaultConfig) 0 256 ∧
    byteIndex (configuredMemory defaultConfig) 0 256 = -4096 ∧
    SetPixel sampleRegisters (configuredMemory defaultConfig) 0 256
      { R := 0, G := 0, B := 1, A := 255 } = none := by
  refine ⟨?_, by decide, by decide, by decide, by decide, by decide, ?_⟩
  · rw [Configure_of_busy sampleRegisters defaultConfig newDevice _ 0 [] rfl]
    rfl
  · rw [SetPixel_eq_classify]
    have hxy : xy (configuredMemory defaultConfig) 0 256 = (0, 256) := by decide
    rw [hxy, if_neg (by decide)]
    exact SetEPDPixel_negative_index _ _ _ _ _ (by decide) (by decide)

end Epd2in9bwr
